import Mathlib

/-!
Verification of the key-gin multi-chain key/signing core.

This file shallowly embeds the cryptographic core of the repository —
hash and encoding primitives, the per-chain key generators, and the
per-chain transaction signers — as executable Lean definitions, and
proves or refutes the frozen specification claims about them.

Conventions of the embedding:
* Go byte slices are `List Nat` with every element below 256.
* Go strings are `List Char` (all data handled here is ASCII).
* Go `(value..., err error)` returns are `Except String value`.
* Machine words are `Nat` with explicit reductions (`% 2 ^ 32`,
  `% 2 ^ 64`, `% 256`) exactly where the Go integer type wraps.
* Calls into external libraries that are deterministic byte-level
  algorithms (hashes, base58, bech32 bit regrouping, secp256k1)
  are implemented concretely; calls whose value this development
  never needs to compute (the ed25519 sign/verify core, the JSON
  decoder) are taken as explicit function parameters so that every
  theorem states precisely which library behaviour it relies on.
* The randomness a Go function draws from `crypto/rand` is passed
  as an explicit argument.
-/

/-! ## Byte and hex utilities -/

/-- All elements of a byte list are below 256. -/
def isBytes (bs : List Nat) : Prop := ∀ b ∈ bs, b < 256

instance (bs : List Nat) : Decidable (isBytes bs) := by
  unfold isBytes; infer_instance

/-- Lower-case hex digit for a value below 16, as Go `encoding/hex` emits. -/
def hexDigit (n : Nat) : Char :=
  if n < 10 then Char.ofNat (48 + n) else Char.ofNat (97 + (n - 10))

/-- Go `hex.EncodeToString`: two lower-case digits per byte. -/
def hexEncode : List Nat → List Char
  | [] => []
  | b :: tl => hexDigit (b / 16) :: hexDigit (b % 16) :: hexEncode tl

/-- Value of one hex digit, upper or lower case, as Go `encoding/hex` accepts. -/
def hexDigitVal (c : Char) : Option Nat :=
  if 48 ≤ c.toNat ∧ c.toNat ≤ 57 then some (c.toNat - 48)
  else if 97 ≤ c.toNat ∧ c.toNat ≤ 102 then some (c.toNat - 87)
  else if 65 ≤ c.toNat ∧ c.toNat ≤ 70 then some (c.toNat - 55)
  else none

/-- Go `hex.DecodeString`: requires even length and hex digits only. -/
def hexDecode : List Char → Option (List Nat)
  | [] => some []
  | [_] => none
  | c₁ :: c₂ :: rest => do
    let h ← hexDigitVal c₁
    let l ← hexDigitVal c₂
    let tl ← hexDecode rest
    pure ((16 * h + l) :: tl)

/-! ## The bech32m codec of `ada_key_generator.go` -/

/-- The 32-character bech32 charset of `ada_key_generator.go`. -/
def bech32Charset : List Char :=
  ['q', 'p', 'z', 'r', 'y', '9', 'x', '8', 'g', 'f', '2', 't', 'v', 'd', 'w', '0',
   's', '3', 'j', 'n', '5', '4', 'k', 'h', 'c', 'e', '6', 'm', 'u', 'a', '7', 'l']

/-- The bech32m checksum constant `0x2bc830a3`. -/
def bech32mConst : Nat := 0x2bc830a3

/-- The inner generator loop of `bech32Polymod`: XOR in `generator[i]`
for every set bit `i` of the saved top five bits. -/
def bech32Gens (t : Nat) : Nat :=
  (if (t >>> 0) &&& 1 = 1 then 0x3b6a57b2 else 0) ^^^
  ((if (t >>> 1) &&& 1 = 1 then 0x26508e6d else 0) ^^^
  ((if (t >>> 2) &&& 1 = 1 then 0x1ea119fa else 0) ^^^
  ((if (t >>> 3) &&& 1 = 1 then 0x3d4233dd else 0) ^^^
  (if (t >>> 4) &&& 1 = 1 then 0x2a1462b3 else 0))))

/-- One iteration of the `bech32Polymod` loop on checksum state `chk`. -/
def bech32Step (chk v : Nat) : Nat :=
  (((chk &&& 0x1ffffff) <<< 5) ^^^ v) ^^^ bech32Gens (chk >>> 25)

/-- `bech32Polymod` of `ada_key_generator.go`. -/
def bech32Polymod (values : List Nat) : Nat :=
  values.foldl bech32Step 1

/-- The HRP expansion performed inline by `bech32mChecksum` and
`verifyChecksum`: high bits of each char, a zero, low five bits of each char. -/
def hrpExpand (hrp : List Char) : List Nat :=
  hrp.map (fun c => c.toNat >>> 5) ++ [0] ++ hrp.map (fun c => c.toNat &&& 0x1f)

/-- `bech32mChecksum` of `ada_key_generator.go`: six 5-bit words of
`polymod(expand(hrp) ++ data ++ [0]*6) ^ bech32mConst`. -/
def bech32mChecksum (hrp : List Char) (data : List Nat) : List Nat :=
  let poly := bech32Polymod (hrpExpand hrp ++ data ++ [0, 0, 0, 0, 0, 0]) ^^^ bech32mConst
  [(poly >>> 25) &&& 0x1f, (poly >>> 20) &&& 0x1f, (poly >>> 15) &&& 0x1f,
   (poly >>> 10) &&& 0x1f, (poly >>> 5) &&& 0x1f, (poly >>> 0) &&& 0x1f]

/-- `verifyChecksum` of `ada_key_generator.go`. -/
def verifyChecksum (hrp : List Char) (data checksum : List Nat) : Bool :=
  bech32Polymod (hrpExpand hrp ++ data ++ checksum) == bech32mConst

/-- Charset lookup used by `encodeBech32m` (`charset[c]`). -/
def charsetGet (v : Nat) : Char := bech32Charset.getD v ' '

/-- The linear scan of `decodeBech32mWithChecksum` locating a char in the
charset: index of the first match, `none` when absent. -/
def charsetIndexOf (c : Char) : Option Nat :=
  bech32Charset.findIdx? (fun x => x == c)

/-- The per-character decode loop of `decodeBech32mWithChecksum`. -/
def decodeDataPart : List Char → Option (List Nat)
  | [] => some []
  | c :: rest => do
    let v ← charsetIndexOf c
    let tl ← decodeDataPart rest
    pure (v :: tl)

/-- `decodeBech32mWithChecksum` of `ada_key_generator.go`: locate the first
`'1'`, split, decode the data part through the charset, verify the final
six words as a bech32m checksum. -/
def decodeBech32mWithChecksum (s : List Char) :
    Except String (List Char × List Nat) :=
  match s.findIdx? (fun c => c == '1') with
  | none => .error "invalid separator position"
  | some sep =>
    if sep < 1 ∨ s.length < sep + 7 then .error "invalid separator position"
    else
      match decodeDataPart (s.drop (sep + 1)) with
      | none => .error "invalid character in data"
      | some data =>
        if data.length < 6 then .error "data too short"
        else if verifyChecksum (s.take sep) (data.take (data.length - 6))
                (data.drop (data.length - 6)) then
          .ok (s.take sep, data.take (data.length - 6))
        else .error "invalid checksum"

/-- `encodeBech32m` of `ada_key_generator.go`: validate the HRP range and the
5-bit data, append the checksum, map through the charset, then re-check the
result (length window, position of the first `'1'`, self-decode). -/
def encodeBech32m (hrp : List Char) (data : List Nat) : Except String (List Char) :=
  if hrp.any (fun c => c.toNat < 33 ∨ 126 < c.toNat) then
    .error "invalid character in hrp"
  else if data.any (fun v => 32 ≤ v) then
    .error "invalid data byte"
  else
    let combined := data ++ bech32mChecksum hrp data
    let result := hrp ++ '1' :: combined.map charsetGet
    if result.length < 8 ∨ 150 < result.length then
      .error "address length outside expected range"
    else
      match result.findIdx? (fun c => c == '1') with
      | none => .error "invalid separator position"
      | some sepIndex =>
        if sepIndex < 1 ∨ 83 < sepIndex then .error "invalid separator position"
        else
          match decodeBech32mWithChecksum result with
          | .error _ => .error "checksum verification failed"
          | .ok _ => .ok result

/-- `validateBech32m` of `ada_key_generator.go`: length window, no mixed
case, then the custom decode. -/
def validateBech32m (s : List Char) : Except String Unit :=
  if s.length < 8 ∨ 150 < s.length then .error "invalid bech32m string length"
  else if (s.any (fun c => 'a' ≤ c ∧ c ≤ 'z')) ∧ (s.any (fun c => 'A' ≤ c ∧ c ≤ 'Z')) then
    .error "bech32m string must not contain mixed case"
  else
    match decodeBech32mWithChecksum s with
    | .error e => .error e
    | .ok _ => .ok ()

/-- Base-32 value of a word list, folded most-significant first with
shift-and-XOR; on 5-bit words this is the usual base-32 number. -/
def val32 (cs : List Nat) : Nat :=
  cs.foldl (fun a c => (a <<< 5) ^^^ c) 0

/-- The six 5-bit chunks of a 30-bit value, most significant first —
the extraction `bech32mChecksum` performs on its polymod value. -/
def chunks30 (poly : Nat) : List Nat :=
  [(poly >>> 25) &&& 0x1f, (poly >>> 20) &&& 0x1f, (poly >>> 15) &&& 0x1f,
   (poly >>> 10) &&& 0x1f, (poly >>> 5) &&& 0x1f, (poly >>> 0) &&& 0x1f]

/-! ## SHA-256 (`crypto/sha256`) -/

/-- Rotate a 32-bit word right. -/
def rotr32 (x n : Nat) : Nat := ((x >>> n) ||| (x <<< (32 - n))) % 2 ^ 32

/-- The SHA-256 round constants. -/
def sha256K : List Nat :=
  [1116352408, 1899447441, 3049323471, 3921009573, 961987163, 1508970993,
   2453635748, 2870763221, 3624381080, 310598401, 607225278, 1426881987,
   1925078388, 2162078206, 2614888103, 3248222580, 3835390401, 4022224774,
   264347078, 604807628, 770255983, 1249150122, 1555081692, 1996064986,
   2554220882, 2821834349, 2952996808, 3210313671, 3336571891, 3584528711,
   113926993, 338241895, 666307205, 773529912, 1294757372, 1396182291,
   1695183700, 1986661051, 2177026350, 2456956037, 2730485921, 2820302411,
   3259730800, 3345764771, 3516065817, 3600352804, 4094571909, 275423344,
   430227734, 506948616, 659060556, 883997877, 958139571, 1322822218,
   1537002063, 1747873779, 1955562222, 2024104815, 2227730452, 2361852424,
   2428436474, 2756734187, 3204031479, 3329325298]

/-- The SHA-256 initial hash state. -/
def sha256InitH : List Nat :=
  [1779033703, 3144134277, 1013904242, 2773480762, 1359893119, 2600822924,
   528734635, 1541459225]

/-- Big-endian bytes of a value, fixed width. -/
def natToBeBytes : Nat → Nat → List Nat
  | 0, _ => []
  | w + 1, n => natToBeBytes w (n / 256) ++ [n % 256]

/-- Big-endian value of a byte list. -/
def beBytesToNat (bs : List Nat) : Nat :=
  bs.foldl (fun a b => a * 256 + b) 0

/-- Split into successive 4-byte big-endian words. -/
def bytesToWordsBe : List Nat → List Nat
  | b0 :: b1 :: b2 :: b3 :: rest =>
    (((b0 * 256 + b1) * 256 + b2) * 256 + b3) :: bytesToWordsBe rest
  | _ => []

/-- SHA-256 message padding: `0x80`, zeros to 56 mod 64, 8-byte bit length. -/
def sha256Pad (msg : List Nat) : List Nat :=
  let padLen := (55 + 64 - msg.length % 64) % 64 + 1
  msg ++ [0x80] ++ List.replicate (padLen - 1) 0 ++ natToBeBytes 8 (msg.length * 8)

/-- Extend a 16-word schedule to 64 words. -/
def sha256Extend (w : List Nat) : Nat → List Nat
  | 0 => w
  | fuel + 1 =>
    let i := w.length
    let w15 := w.getD (i - 15) 0
    let w2 := w.getD (i - 2) 0
    let s0 := (rotr32 w15 7) ^^^ (rotr32 w15 18) ^^^ (w15 >>> 3)
    let s1 := (rotr32 w2 17) ^^^ (rotr32 w2 19) ^^^ (w2 >>> 10)
    sha256Extend (w ++ [(w.getD (i - 16) 0 + s0 + w.getD (i - 7) 0 + s1) % 2 ^ 32]) fuel

/-- One SHA-256 compression round on state `[a,b,c,d,e,f,g,h]`. -/
def sha256Round (st : List Nat) (kw : Nat × Nat) : List Nat :=
  match st with
  | [a, b, c, d, e, f, g, h] =>
    let s1 := (rotr32 e 6) ^^^ (rotr32 e 11) ^^^ (rotr32 e 25)
    let ch := (e &&& f) ^^^ ((2 ^ 32 - 1 - e) &&& g)
    let t1 := (h + s1 + ch + kw.1 + kw.2) % 2 ^ 32
    let s0 := (rotr32 a 2) ^^^ (rotr32 a 13) ^^^ (rotr32 a 22)
    let mj := (a &&& b) ^^^ (a &&& c) ^^^ (b &&& c)
    let t2 := (s0 + mj) % 2 ^ 32
    [(t1 + t2) % 2 ^ 32, a, b, c, (d + t1) % 2 ^ 32, e, f, g]
  | other => other

/-- Compress one 64-byte chunk into the running state. -/
def sha256Compress (h : List Nat) (chunk : List Nat) : List Nat :=
  let w := sha256Extend (bytesToWordsBe chunk) 48
  let st := (sha256K.zip w).foldl (fun s kw => sha256Round s (kw.1, kw.2)) h
  (h.zip st).map (fun p => (p.1 + p.2) % 2 ^ 32)

/-- Split a list into 64-byte chunks (fuel-driven, structural). -/
def chunks64 : Nat → List Nat → List (List Nat)
  | 0, _ => []
  | fuel + 1, bs => if bs.isEmpty then [] else bs.take 64 :: chunks64 fuel (bs.drop 64)

/-- `sha256.Sum256`: the SHA-256 digest, 32 bytes. -/
def sha256 (msg : List Nat) : List Nat :=
  let padded := sha256Pad msg
  let hh := (chunks64 padded.length padded).foldl sha256Compress sha256InitH
  hh.flatMap (natToBeBytes 4)

/-! ## Keccak (legacy Keccak-256 of go-ethereum and SHA3-256 of x/crypto) -/

/-- Rotate a 64-bit lane left. -/
def rotl64 (x n : Nat) : Nat := ((x <<< n) ||| (x >>> (64 - n))) % 2 ^ 64

/-- Keccak round constants. -/
def keccakRC : List Nat :=
  [1, 32898, 9223372036854808714, 9223372039002292224,
   32907, 2147483649, 9223372039002292353, 9223372036854808585,
   138, 136, 2147516425, 2147483658,
   2147516555, 9223372036854775947, 9223372036854808713, 9223372036854808579,
   9223372036854808578, 9223372036854775936, 32778, 9223372039002259466,
   9223372039002292353, 9223372036854808704, 2147483649, 9223372039002292232]

/-- Lane at (x, y) of a 25-lane state. -/
def lane (st : List Nat) (x y : Nat) : Nat := st.getD (x + 5 * y) 0

/-- Keccak theta step. -/
def keccakTheta (st : List Nat) : List Nat :=
  let c := (List.range 5).map (fun x =>
    lane st x 0 ^^^ lane st x 1 ^^^ lane st x 2 ^^^ lane st x 3 ^^^ lane st x 4)
  let d := (List.range 5).map (fun x =>
    c.getD ((x + 4) % 5) 0 ^^^ rotl64 (c.getD ((x + 1) % 5) 0) 1)
  (List.range 25).map (fun i => st.getD i 0 ^^^ d.getD (i % 5) 0)

/-- Rotation offsets for rho, indexed `x + 5 * y`. -/
def keccakRho : List Nat :=
  [0, 1, 62, 28, 27, 36, 44, 6, 55, 20, 3, 10] ++
    [43, 25, 39, 41, 45, 15, 21, 8, 18, 2, 61, 56, 14]

/-- Keccak rho and pi steps combined: `B[y][2x+3y] = rotl(A[x][y], r[x][y])`. -/
def keccakRhoPi (st : List Nat) : List Nat :=
  (List.range 25).map (fun i =>
    let x := i % 5
    let y := i / 5
    let srcX := (x + 3 * y) % 5
    let srcY := x
    rotl64 (lane st srcX srcY) (keccakRho.getD (srcX + 5 * srcY) 0))

/-- Keccak chi step. -/
def keccakChi (st : List Nat) : List Nat :=
  (List.range 25).map (fun i =>
    let x := i % 5
    let y := i / 5
    lane st x y ^^^ ((2 ^ 64 - 1 - lane st ((x + 1) % 5) y) &&& lane st ((x + 2) % 5) y))

/-- One Keccak-f[1600] round. -/
def keccakRound (st : List Nat) (rc : Nat) : List Nat :=
  let st := keccakChi (keccakRhoPi (keccakTheta st))
  match st with
  | s0 :: rest => (s0 ^^^ rc) :: rest
  | [] => []

/-- The Keccak-f[1600] permutation: 24 rounds. -/
def keccakF (st : List Nat) : List Nat :=
  keccakRC.foldl keccakRound st

/-- Little-endian value of a byte list. -/
def leBytesToNat : List Nat → Nat
  | [] => 0
  | b :: rest => b + 256 * leBytesToNat rest

/-- Little-endian bytes of a value, fixed width. -/
def natToLeBytes : Nat → Nat → List Nat
  | 0, _ => []
  | w + 1, n => n % 256 :: natToLeBytes w (n / 256)

/-- Split bytes into 64-bit little-endian lanes. -/
def bytesToLanesLe : List Nat → List Nat
  | b0 :: b1 :: b2 :: b3 :: b4 :: b5 :: b6 :: b7 :: rest =>
    leBytesToNat [b0, b1, b2, b3, b4, b5, b6, b7] :: bytesToLanesLe rest
  | _ => []

/-- Keccak sponge padding for rate 136 with the given domain byte
(`0x01` legacy Keccak, `0x06` SHA-3). -/
def keccakPad (dsbyte : Nat) (msg : List Nat) : List Nat :=
  let padLen := 136 - msg.length % 136
  if padLen = 1 then msg ++ [dsbyte ||| 0x80]
  else msg ++ [dsbyte] ++ List.replicate (padLen - 2) 0 ++ [0x80]

/-- Absorb one 136-byte block into the 25-lane state and permute. -/
def keccakAbsorb (st : List Nat) (block : List Nat) : List Nat :=
  let lanes := bytesToLanesLe block
  keccakF ((List.range 25).map (fun i => st.getD i 0 ^^^ lanes.getD i 0))

/-- Split a list into 136-byte chunks (fuel-driven, structural). -/
def chunks136 : Nat → List Nat → List (List Nat)
  | 0, _ => []
  | fuel + 1, bs => if bs.isEmpty then [] else bs.take 136 :: chunks136 fuel (bs.drop 136)

/-- The 256-bit Keccak sponge with a choice of domain byte. -/
def keccak256With (dsbyte : Nat) (msg : List Nat) : List Nat :=
  let padded := keccakPad dsbyte msg
  let st := (chunks136 padded.length padded).foldl keccakAbsorb (List.replicate 25 0)
  (st.take 4).flatMap (natToLeBytes 8)

/-- `crypto.Keccak256` of go-ethereum (legacy Keccak-256, domain byte 1). -/
def keccak256 (msg : List Nat) : List Nat := keccak256With 0x01 msg

/-- `sha3.Sum256` of x/crypto (FIPS 202 SHA3-256, domain byte 6). -/
def sha3_256 (msg : List Nat) : List Nat := keccak256With 0x06 msg

/-! ## Blake2b (`golang.org/x/crypto/blake2b`) -/

/-- Rotate a 64-bit word right. -/
def rotr64 (x n : Nat) : Nat := ((x >>> n) ||| (x <<< (64 - n))) % 2 ^ 64

/-- The Blake2b initialization vector. -/
def blake2bIV : List Nat :=
  [7640891576956012808, 13503953896175478587, 4354685564936845355, 11912009170470909681,
   5840696475078001361, 11170449401992604703, 2270897969802886507, 6620516959819538809]

/-- The Blake2b message schedule permutations. -/
def blake2bSigma : List (List Nat) :=
  [[0, 1, 2, 3, 4, 5, 6, 7, 8, 9, 10, 11, 12, 13, 14, 15],
   [14, 10, 4, 8, 9, 15, 13, 6, 1, 12, 0, 2, 11, 7, 5, 3],
   [11, 8, 12, 0, 5, 2, 15, 13, 10, 14, 3, 6, 7, 1, 9, 4],
   [7, 9, 3, 1, 13, 12, 11, 14, 2, 6, 5, 10, 4, 0, 15, 8],
   [9, 0, 5, 7, 2, 4, 10, 15, 14, 1, 11, 12, 6, 8, 3, 13],
   [2, 12, 6, 10, 0, 11, 8, 3, 4, 13, 7, 5, 15, 14, 1, 9],
   [12, 5, 1, 15, 14, 13, 4, 10, 0, 7, 6, 3, 9, 2, 8, 11],
   [13, 11, 7, 14, 12, 1, 3, 9, 5, 0, 15, 4, 8, 6, 2, 10],
   [6, 15, 14, 9, 11, 3, 0, 8, 12, 2, 13, 7, 1, 4, 10, 5],
   [10, 2, 8, 4, 7, 6, 1, 5, 15, 11, 9, 14, 3, 12, 13, 0]]

/-- Update positions `a b c d` of a 16-word vector by the Blake2b quarter
round with message words `x y`. -/
def blake2bG (v : List Nat) (a b c d x y : Nat) : List Nat :=
  let va := (v.getD a 0 + v.getD b 0 + x) % 2 ^ 64
  let vd := rotr64 (v.getD d 0 ^^^ va) 32
  let vc := (v.getD c 0 + vd) % 2 ^ 64
  let vb := rotr64 (v.getD b 0 ^^^ vc) 24
  let va2 := (va + vb + y) % 2 ^ 64
  let vd2 := rotr64 (vd ^^^ va2) 16
  let vc2 := (vc + vd2) % 2 ^ 64
  let vb2 := rotr64 (vb ^^^ vc2) 63
  (List.range 16).map (fun i =>
    if i = a then va2 else if i = b then vb2 else if i = c then vc2
    else if i = d then vd2 else v.getD i 0)

/-- One Blake2b round with schedule row `s` over message words `m`. -/
def blake2bRound (m : List Nat) (v : List Nat) (s : List Nat) : List Nat :=
  let mi := fun i => m.getD (s.getD i 0) 0
  let v := blake2bG v 0 4 8 12 (mi 0) (mi 1)
  let v := blake2bG v 1 5 9 13 (mi 2) (mi 3)
  let v := blake2bG v 2 6 10 14 (mi 4) (mi 5)
  let v := blake2bG v 3 7 11 15 (mi 6) (mi 7)
  let v := blake2bG v 0 5 10 15 (mi 8) (mi 9)
  let v := blake2bG v 1 6 11 12 (mi 10) (mi 11)
  let v := blake2bG v 2 7 8 13 (mi 12) (mi 13)
  blake2bG v 3 4 9 14 (mi 14) (mi 15)

/-- The Blake2b compression function `F`. -/
def blake2bCompress (h : List Nat) (block : List Nat) (t : Nat) (last : Bool) : List Nat :=
  let m := bytesToLanesLe block
  let v0 := h ++ blake2bIV
  let v1 := (List.range 16).map (fun i =>
    if i = 12 then v0.getD 12 0 ^^^ (t % 2 ^ 64)
    else if i = 13 then v0.getD 13 0 ^^^ (t / 2 ^ 64)
    else if i = 14 ∧ last then v0.getD 14 0 ^^^ (2 ^ 64 - 1)
    else v0.getD i 0)
  let rows := [0, 1, 2, 3, 4, 5, 6, 7, 8, 9, 0, 1]
  let vf := rows.foldl (fun v r => blake2bRound m v (blake2bSigma.getD r [])) v1
  (List.range 8).map (fun i => h.getD i 0 ^^^ vf.getD i 0 ^^^ vf.getD (i + 8) 0)

/-- Blake2b block loop: full 128-byte blocks with running counter, then the
zero-padded final block flagged last (fuel-driven, structural). -/
def blake2bBlocks : Nat → List Nat → List Nat → Nat → List Nat
  | 0, h, _, _ => h
  | fuel + 1, h, rest, done =>
    if rest.length ≤ 128 then
      blake2bCompress h (rest ++ List.replicate (128 - rest.length) 0)
        (done + rest.length) true
    else
      blake2bBlocks fuel
        (blake2bCompress h (rest.take 128) (done + 128) false) (rest.drop 128) (done + 128)

/-- Unkeyed Blake2b with digest size `nn` bytes (`blake2b.New(nn, nil)` /
`blake2b.Sum256`). -/
def blake2b (nn : Nat) (msg : List Nat) : List Nat :=
  let h0 := (List.range 8).map (fun i =>
    if i = 0 then blake2bIV.getD 0 0 ^^^ (0x01010000 ||| nn) else blake2bIV.getD i 0)
  let hf := blake2bBlocks (msg.length + 1) h0 msg 0
  (hf.flatMap (natToLeBytes 8)).take nn

/-- `blake2b.New(28, nil)`: Blake2b-224. -/
def blake2b224 (msg : List Nat) : List Nat := blake2b 28 msg

/-- `blake2b.Sum256`: Blake2b-256. -/
def blake2b256 (msg : List Nat) : List Nat := blake2b 32 msg

/-! ## secp256k1 (btcec / go-ethereum curve operations) -/

/-- The secp256k1 field prime. -/
def secpP : Nat :=
  0xfffffffffffffffffffffffffffffffffffffffffffffffffffffffefffffc2f

/-- The secp256k1 group order. -/
def secpN : Nat :=
  0xfffffffffffffffffffffffffffffffebaaedce6af48a03bbfd25e8cd0364141

/-- x-coordinate of the secp256k1 generator. -/
def secpGx : Nat :=
  0x79be667ef9dcbbac55a06295ce870b07029bfcdb2dce28d959f2815b16f81798

/-- y-coordinate of the secp256k1 generator. -/
def secpGy : Nat :=
  0x483ada7726a3c4655da4fbfc0e1108a8fd17b448a68554199c47d08ffb10d4b8

/-- Fast modular exponentiation, structural on fuel. -/
def powModFuel : Nat → Nat → Nat → Nat → Nat
  | 0, _, _, _ => 1
  | fuel + 1, b, e, m =>
    if e = 0 then 1
    else
      let r := powModFuel fuel ((b * b) % m) (e / 2) m
      if e % 2 = 1 then (b % m) * r % m else r

/-- Modular inverse in the secp256k1 field by Fermat. -/
def secpInv (x : Nat) : Nat := powModFuel 300 x (secpP - 2) secpP

/-- Field subtraction. -/
def secpSub (a b : Nat) : Nat := (a + secpP - b % secpP) % secpP

/-- A point: `none` is the point at infinity. -/
def SecpPoint : Type := Option (Nat × Nat)

/-- Point doubling. -/
def secpDouble : SecpPoint → SecpPoint
  | none => none
  | some (x, y) =>
    if y % secpP = 0 then none
    else
      let l := 3 * x * x % secpP * secpInv (2 * y % secpP) % secpP
      let x2 := secpSub (secpSub (l * l % secpP) x) x
      some (x2, secpSub (l * secpSub x x2 % secpP) y)

/-- Point addition. -/
def secpAdd : SecpPoint → SecpPoint → SecpPoint
  | none, q => q
  | p, none => p
  | some (x1, y1), some (x2, y2) =>
    if x1 % secpP = x2 % secpP then
      if (y1 + y2) % secpP = 0 then none else secpDouble (some (x1, y1))
    else
      let l := secpSub y2 y1 * secpInv (secpSub x2 x1) % secpP
      let x3 := secpSub (secpSub (l * l % secpP) x1) x2
      some (x3, secpSub (l * secpSub x1 x3 % secpP) y1)

/-- Binary expansion, least significant bit first, structural on fuel. -/
def natBits : Nat → Nat → List Bool
  | 0, _ => []
  | fuel + 1, n => if n = 0 then [] else (n % 2 = 1) :: natBits fuel (n / 2)

/-- Double-and-add over a bit list. -/
def secpMulBits : List Bool → SecpPoint → SecpPoint
  | [], _ => none
  | b :: bs, p =>
    let rest := secpMulBits bs (secpDouble p)
    if b then secpAdd p rest else rest

/-- Scalar multiplication. -/
def secpScalarMult (k : Nat) (p : SecpPoint) : SecpPoint :=
  secpMulBits (natBits 300 k) p

/-- Coordinates of `k·G`; the zero pair stands for the (unreachable for
valid private scalars) point at infinity. -/
def secpBase (k : Nat) : Nat × Nat :=
  (secpScalarMult k (some (secpGx, secpGy))).getD (0, 0)

/-- On-curve test `y² = x³ + 7`. -/
def secpOnCurve (x y : Nat) : Bool :=
  y * y % secpP == (x * x % secpP * x + 7) % secpP

/-! ## go-ethereum key plumbing (`crypto` package) -/

/-- `crypto.FromECDSA`: the 32-byte big-endian private scalar. -/
def FromECDSA (k : Nat) : List Nat := natToBeBytes 32 k

/-- `crypto.FromECDSAPub`: 65-byte uncompressed point `04 ‖ X ‖ Y`. -/
def FromECDSAPub (pt : Nat × Nat) : List Nat :=
  4 :: natToBeBytes 32 pt.1 ++ natToBeBytes 32 pt.2

/-- `crypto.CompressPubkey` / btcec `SerializeCompressed`:
`(2 + Y mod 2) ‖ X`. -/
def CompressPubkey (pt : Nat × Nat) : List Nat :=
  (2 + pt.2 % 2) :: natToBeBytes 32 pt.1

/-- `crypto.ToECDSA` (strict): exactly 32 bytes, scalar in `[1, N-1]`. -/
def ToECDSA (bs : List Nat) : Except String Nat :=
  if bs.length ≠ 32 then .error "invalid length, need 256 bits"
  else
    let k := beBytesToNat bs
    if secpN ≤ k then .error "invalid private key, >=N"
    else if k = 0 then .error "invalid private key, zero or negative"
    else .ok k

/-- btcec/v2 `PrivKeyFromBytes`: the bytes reduced into the scalar field,
never failing. -/
def PrivKeyFromBytes (bs : List Nat) : Nat := beBytesToNat bs % secpN

/-- The successive 4-bit nibbles of a byte list, high nibble first — the
per-hex-digit view `checksumHex` takes of its Keccak hash. -/
def hashNibbles (bs : List Nat) : List Nat :=
  bs.flatMap (fun b => [b >>> 4, b &&& 0xf])

/-- The EIP-55 mixed-case hex of a 20-byte address
(`common.Address.Hex` without the `0x`): each hex digit of the lower-case
encoding is uppercased when it is a letter and the matching nibble of
`Keccak256(lowercase hex)` exceeds 7. -/
def checksumHex (addr : List Nat) : List Char :=
  let buf := hexEncode addr
  List.zipWith
    (fun c nib => if 57 < c.toNat ∧ 7 < nib then Char.ofNat (c.toNat - 32) else c)
    buf (hashNibbles (keccak256 (buf.map Char.toNat)))

/-- `common.Address.Hex`: `0x` plus the EIP-55 checksummed hex. -/
def addressHex (addr : List Nat) : List Char := '0' :: 'x' :: checksumHex addr

/-- `crypto.PubkeyToAddress`: last 20 bytes of `Keccak256(X ‖ Y)`. -/
def PubkeyToAddress (pt : Nat × Nat) : List Nat :=
  (keccak256 ((FromECDSAPub pt).drop 1)).drop 12

/-- `crypto.UnmarshalPubkey`: 65 bytes `04 ‖ X ‖ Y`, on curve. -/
def UnmarshalPubkey (bs : List Nat) : Except String (Nat × Nat) :=
  match bs with
  | b0 :: rest =>
    if b0 = 4 ∧ rest.length = 64 then
      let x := beBytesToNat (rest.take 32)
      let y := beBytesToNat (rest.drop 32)
      if x < secpP ∧ y < secpP ∧ secpOnCurve x y then .ok (x, y)
      else .error "invalid secp256k1 public key"
    else .error "invalid secp256k1 public key"
  | [] => .error "invalid secp256k1 public key"

/-- Modular square root in the secp256k1 field (`p ≡ 3 mod 4`). -/
def secpSqrt (a : Nat) : Nat := powModFuel 300 a ((secpP + 1) / 4) secpP

/-- `crypto.DecompressPubkey`: 33 bytes `02/03 ‖ X`. -/
def DecompressPubkey (bs : List Nat) : Except String (Nat × Nat) :=
  match bs with
  | b0 :: rest =>
    if (b0 = 2 ∨ b0 = 3) ∧ rest.length = 32 then
      let x := beBytesToNat rest
      let c := (x * x % secpP * x + 7) % secpP
      let y0 := secpSqrt c
      let y := if y0 % 2 = b0 % 2 then y0 else secpSub 0 y0
      if x < secpP ∧ y * y % secpP = c then .ok (x, y)
      else .error "invalid public key"
    else .error "invalid public key"
  | _ => .error "invalid public key"

/-! ## Base58 (`mr-tron/base58`, Bitcoin alphabet) -/

/-- The Bitcoin base58 alphabet. -/
def base58Alphabet : List Char :=
  ['1', '2', '3', '4', '5', '6', '7', '8', '9', 'A', 'B', 'C', 'D', 'E', 'F',
   'G', 'H', 'J', 'K', 'L', 'M', 'N', 'P', 'Q', 'R', 'S', 'T', 'U', 'V', 'W',
   'X', 'Y', 'Z', 'a', 'b', 'c', 'd', 'e', 'f', 'g', 'h', 'i', 'j', 'k', 'm',
   'n', 'o', 'p', 'q', 'r', 's', 't', 'u', 'v', 'w', 'x', 'y', 'z']

/-- Base58 digits of a value, most significant first, structural on fuel. -/
def base58Digits : Nat → Nat → List Char
  | 0, _ => []
  | fuel + 1, n =>
    if n = 0 then []
    else base58Digits fuel (n / 58) ++ [base58Alphabet.getD (n % 58) '1']

/-- `base58.Encode`: leading `'1'` per leading zero byte, then the base-58
digits of the big-endian value. -/
def base58Encode (bs : List Nat) : List Char :=
  let zeros := (bs.takeWhile (fun b => b == 0)).length
  List.replicate zeros '1' ++ base58Digits (8 * bs.length) (beBytesToNat bs)

/-! ## The Go `crypto/ed25519` surface used by the repository -/

/-- `ed25519.GenerateKey`: with the 32 random bytes `r` drawn from the
reader as explicit input and the seed-to-pubkey map as a parameter, the
returned pair is `(pub, seed ‖ pub)`. -/
def ed25519GenerateKey (pubOfSeed : List Nat → List Nat) (r : List Nat) :
    List Nat × List Nat :=
  (pubOfSeed r, r ++ pubOfSeed r)

/-- `ed25519.NewKeyFromSeed`: the 64-byte key `seed ‖ pub(seed)`. -/
def ed25519NewKeyFromSeed (pubOfSeed : List Nat → List Nat) (seed : List Nat) :
    List Nat :=
  seed ++ pubOfSeed seed

/-- `ed25519.PrivateKey.Public`: a fresh 32-byte buffer filled from
`priv[32:]` — bytes beyond `priv`'s length stay zero, exactly as Go's
`make` + `copy` behave on a short key. -/
def ed25519Public (priv : List Nat) : List Nat :=
  (priv.drop 32 ++ List.replicate 32 0).take 32

/-! ## `eth_key_generator.go` -/

/-- `EthKeyGenerator.GenerateKeyPair`, the random scalar as input. -/
def EthKeyGenerator.GenerateKeyPair (k : Nat) : List Char × List Char × List Char :=
  (addressHex (PubkeyToAddress (secpBase k)),
   hexEncode (FromECDSAPub (secpBase k)),
   hexEncode (FromECDSA k))

/-- `EthKeyGenerator.DeriveKeyPairFromPrivateKey`. -/
def EthKeyGenerator.DeriveKeyPairFromPrivateKey (privateKey : List Char) :
    Except String (List Char × List Char) :=
  match hexDecode privateKey with
  | none => .error "failed to decode private key"
  | some bs =>
    match ToECDSA bs with
    | .error e => .error e
    | .ok k =>
      .ok (addressHex (PubkeyToAddress (secpBase k)), hexEncode (FromECDSAPub (secpBase k)))

/-- `EthKeyGenerator.PublicKeyToAddress`: accepts the 65-byte uncompressed
or the 33-byte compressed form. -/
def EthKeyGenerator.PublicKeyToAddress (publicKey : List Char) :
    Except String (List Char) :=
  match hexDecode publicKey with
  | none => .error "failed to decode public key"
  | some bs =>
    if bs.length = 65 then
      match UnmarshalPubkey bs with
      | .error e => .error e
      | .ok pt => .ok (addressHex (PubkeyToAddress pt))
    else if bs.length = 33 then
      match DecompressPubkey bs with
      | .error e => .error e
      | .ok pt => .ok (addressHex (PubkeyToAddress pt))
    else .error "invalid public key length"

/-! ## `key_generator.go`: the factory and its eight generators -/

/-- The generator strategies `NewKeyGenerator` can return. -/
inductive GenKind where
  | ethGen | btcGen | solanaGen | tronGen | suiGen | adaGen | polkadotGen | tonGen
  deriving DecidableEq

/-- `NewKeyGenerator` of `key_generator.go`. -/
def NewKeyGenerator (chainType : List Char) : Except String GenKind :=
  if chainType = "ethereum".toList ∨ chainType = "avalanche".toList then .ok .ethGen
  else if chainType = "bitcoin".toList then .ok .btcGen
  else if chainType = "solana".toList then .ok .solanaGen
  else if chainType = "tron".toList then .ok .tronGen
  else if chainType = "sui".toList then .ok .suiGen
  else if chainType = "cardano".toList then .ok .adaGen
  else if chainType = "polkadot".toList ∨ chainType = "kusama".toList then .ok .polkadotGen
  else if chainType = "ton".toList then .ok .tonGen
  else .error "unsupported chain type"

/-- The address each `key_generator.go` strategy builds from the scalar's
public point. -/
def kgAddress (g : GenKind) (k : Nat) : List Char :=
  let pub65 := FromECDSAPub (secpBase k)
  match g with
  | .ethGen => addressHex (PubkeyToAddress (secpBase k))
  | .btcGen => hexEncode (CompressPubkey (secpBase k))
  | .solanaGen => 'S' :: 'O' :: 'L' :: hexEncode (pub65.take 20)
  | .tronGen => 'T' :: (addressHex (PubkeyToAddress (secpBase k))).drop 1
  | .suiGen => '0' :: 'x' :: hexEncode (pub65.take 20)
  | .adaGen => 'a' :: 'd' :: 'd' :: 'r' :: '1' :: hexEncode (pub65.take 20)
  | .polkadotGen => '1' :: hexEncode (pub65.take 20)
  | .tonGen => 'E' :: 'Q' :: hexEncode (pub65.take 32)

/-- The public-key string each strategy reports. -/
def kgPublicKey (g : GenKind) (k : Nat) : List Char :=
  match g with
  | .btcGen => hexEncode (CompressPubkey (secpBase k))
  | _ => hexEncode (FromECDSAPub (secpBase k))

/-- `GenerateKeyPair` of each `key_generator.go` strategy, random scalar as
input: `(address, publicKey, privateKey)`. -/
def kgGenerateKeyPair (g : GenKind) (k : Nat) : List Char × List Char × List Char :=
  (kgAddress g k, kgPublicKey g k, hexEncode (FromECDSA k))

/-- `DeriveKeyPairFromPrivateKey` of each strategy: hex-decode, then
`crypto.ToECDSA` (every strategy except Bitcoin) or btcec
`PrivKeyFromBytes` (Bitcoin), then the strategy's address formula. -/
def kgDeriveKeyPairFromPrivateKey (g : GenKind) (privateKey : List Char) :
    Except String (List Char × List Char) :=
  match hexDecode privateKey with
  | none => .error "failed to decode private key"
  | some bs =>
    match g with
    | .btcGen => .ok (kgAddress .btcGen (PrivKeyFromBytes bs), kgPublicKey .btcGen (PrivKeyFromBytes bs))
    | g =>
      match ToECDSA bs with
      | .error e => .error e
      | .ok k => .ok (kgAddress g k, kgPublicKey g k)

/-! ## `part_007`: the real ed25519 `SolanaKeyGenerator` -/

/-- `SolanaKeyGenerator.GenerateKeyPair`. -/
def SolanaKeyGenerator.GenerateKeyPair (pubOfSeed : List Nat → List Nat)
    (r : List Nat) : List Char × List Char × List Char :=
  let pair := ed25519GenerateKey pubOfSeed r
  (base58Encode pair.1, hexEncode pair.1, hexEncode pair.2)

/-- `SolanaKeyGenerator.DeriveKeyPairFromPrivateKey`. -/
def SolanaKeyGenerator.DeriveKeyPairFromPrivateKey (privateKey : List Char) :
    Except String (List Char × List Char) :=
  match hexDecode privateKey with
  | none => .error "failed to decode private key"
  | some bs =>
    if bs.length ≠ 64 then .error "invalid private key length"
    else .ok (base58Encode (bs.drop 32), hexEncode (bs.drop 32))

/-- `SolanaKeyGenerator.PublicKeyToAddress`. -/
def SolanaKeyGenerator.PublicKeyToAddress (publicKey : List Char) :
    Except String (List Char) :=
  match hexDecode publicKey with
  | none => .error "failed to decode public key"
  | some bs =>
    if bs.length ≠ 32 then .error "invalid public key length"
    else .ok (base58Encode bs)

/-- ASCII lower-casing of A-Z, as a character map. -/
def asciiToLower (c : Char) : Char :=
  if 65 ≤ c.toNat ∧ c.toNat ≤ 90 then Char.ofNat (c.toNat + 32) else c

/-! ## Ed25519 transaction signers (`part_013`, `part_003`, SUI signer) -/

/-- Go `ed25519.Verify`: a wrong-length signature or one with the top
three bits of its last byte set yields `false`; otherwise the library's
verification equation (taken as a parameter) decides. -/
def ed25519Verify (verifyCore : List Nat → List Nat → List Nat → Bool)
    (pub msg sig : List Nat) : Bool :=
  if sig.length ≠ 64 ∨ sig.getD 63 0 &&& 224 ≠ 0 then false
  else verifyCore pub msg sig

/-- `SolanaTransactionSigner.SignTransaction`: decode and length-check the
64-byte key, JSON-check the raw transaction (`encoding/json` as a
parameter), sign the SHA-256 of the raw bytes; returns
`(signedTx, txHash)`. -/
def SolanaTransactionSigner.SignTransaction
    (edSign : List Nat → List Nat → List Nat) (jsonOk : List Char → Bool)
    (rawTx privateKeyHex : List Char) : Except String (List Char × List Char) :=
  match hexDecode privateKeyHex with
  | none => .error "invalid private key format"
  | some priv =>
    if priv.length ≠ 64 then .error "invalid private key length"
    else if ¬ jsonOk rawTx then .error "invalid transaction data format"
    else
      let txDataHash := sha256 (rawTx.map Char.toNat)
      .ok (hexEncode (edSign priv txDataHash), hexEncode txDataHash)

/-- `SolanaTransactionSigner.VerifyTransaction`: decode and length-check
the public key, decode the signature (no length check of its own), and
hand the SHA-256 digest to `ed25519.Verify`. -/
def SolanaTransactionSigner.VerifyTransaction
    (verifyCore : List Nat → List Nat → List Nat → Bool)
    (rawTx signatureHex publicKeyHex : List Char) : Except String Bool :=
  match hexDecode publicKeyHex with
  | none => .error "invalid public key format"
  | some pub =>
    if pub.length ≠ 32 then .error "invalid public key length"
    else
      match hexDecode signatureHex with
      | none => .error "invalid signature format"
      | some sig =>
        .ok (ed25519Verify verifyCore pub (sha256 (rawTx.map Char.toNat)) sig)

/-- `TonTransactionSigner.VerifyTransaction` (`part_003`): identical shape
to the Solana verifier — no signature length check of its own. -/
def TonTransactionSigner.VerifyTransaction
    (verifyCore : List Nat → List Nat → List Nat → Bool)
    (rawTx signatureHex publicKeyHex : List Char) : Except String Bool :=
  match hexDecode publicKeyHex with
  | none => .error "invalid public key format"
  | some pub =>
    if pub.length ≠ 32 then .error "invalid public key length"
    else
      match hexDecode signatureHex with
      | none => .error "invalid signature format"
      | some sig =>
        .ok (ed25519Verify verifyCore pub (sha256 (rawTx.map Char.toNat)) sig)

/-- `SuiTransactionSigner.VerifyTransaction`: unlike Solana and TON, this
verifier rejects a signature whose decoded length is not 64 bytes with an
error before calling `ed25519.Verify`. -/
def SuiTransactionSigner.VerifyTransaction
    (verifyCore : List Nat → List Nat → List Nat → Bool)
    (rawTx signatureHex publicKeyHex : List Char) : Except String Bool :=
  match hexDecode publicKeyHex with
  | none => .error "invalid public key format"
  | some pub =>
    if pub.length ≠ 32 then .error "invalid public key length"
    else
      match hexDecode signatureHex with
      | none => .error "invalid signature format"
      | some sig =>
        if sig.length ≠ 64 then .error "invalid signature length"
        else .ok (ed25519Verify verifyCore pub (sha256 (rawTx.map Char.toNat)) sig)

/-! ## `part_011`: the Polkadot/Kusama signer, and the signer factory -/

/-- `PolkadotTransactionSigner.SignTransaction`: placeholder signing; the
signature is `Keccak256(privateKeyBytes ‖ rawTx)`, tagged `dot`/`ksm`. -/
def PolkadotTransactionSigner.SignTransaction (isKusama : Bool)
    (jsonOk : List Char → Bool) (rawTx privateKeyHex : List Char) :
    Except String (List Char × List Char) :=
  match hexDecode privateKeyHex with
  | none => .error "invalid private key format"
  | some priv =>
    if ¬ jsonOk rawTx then .error "invalid transaction data format"
    else
      let signature := keccak256 (priv ++ rawTx.map Char.toNat)
      let pre := if isKusama then "ksm".toList else "dot".toList
      let signedTx := pre ++ "_signed_".toList ++ hexEncode signature
      .ok (signedTx, pre ++ "_".toList ++ hexEncode (keccak256 (signedTx.map Char.toNat)))

/-- The signer strategies `NewTransactionSigner` can return; the
Polkadot/Kusama strategy carries its `IsKusama` flag. -/
inductive SignerKind where
  | ethSigner | btcSigner | solanaSigner | tronSigner | suiSigner | adaSigner
  | polkadotSigner (isKusama : Bool) | tonSigner
  deriving DecidableEq

/-- `NewTransactionSigner` of `factory.go`. -/
def NewTransactionSigner (chainType : List Char) : Except String SignerKind :=
  if chainType = "ethereum".toList ∨ chainType = "binance_smart_chain".toList ∨
      chainType = "polygon".toList ∨ chainType = "avalanche".toList then .ok .ethSigner
  else if chainType = "bitcoin".toList then .ok .btcSigner
  else if chainType = "solana".toList then .ok .solanaSigner
  else if chainType = "tron".toList then .ok .tronSigner
  else if chainType = "sui".toList then .ok .suiSigner
  else if chainType = "cardano".toList then .ok .adaSigner
  else if chainType = "polkadot".toList then .ok (.polkadotSigner false)
  else if chainType = "kusama".toList then .ok (.polkadotSigner true)
  else if chainType = "ton".toList then .ok .tonSigner
  else .error "unsupported chain type"

/-- A concrete stand-in signature scheme satisfying the `crypto/ed25519`
contract shape, used only to witness scheme-parameterized theorems: the
public key is the (byte-clamped) second half of the private key and a
signature is the public key padded with zeros. -/
def toyPub (p : List Nat) : List Nat :=
  ((p.drop 32 ++ List.replicate 32 0).take 32).map (fun b => b % 256)

/-- Toy signing for witnesses: the public key followed by 32 zero bytes. -/
def toySign (p _m : List Nat) : List Nat :=
  toyPub p ++ List.replicate 32 0

/-- Toy verification for witnesses: the signature must open with the
public key. -/
def toyVerify (q _m s : List Nat) : Bool :=
  decide (s.take 32 = q)

/-! ## `ada_key_generator.go`: the two `GenerateCardanoAddress` implementations -/

/-- `bech32.ConvertBits(data, 8, 5, true)`: regroup the big-endian bit
stream of `data` into 5-bit words, zero-padding the final word. The
accumulator `acc` holds `bits` (< 5) leftover bits between input bytes. -/
def convertBits8to5 : List Nat → Nat → Nat → List Nat
  | [], acc, bits => if 0 < bits then [(acc <<< (5 - bits)) &&& 31] else []
  | v :: rest, acc, bits =>
    let acc2 := (acc <<< 8) ||| (v % 256)
    let bits2 := bits + 8
    if 10 ≤ bits2 then
      ((acc2 >>> (bits2 - 5)) &&& 31) :: ((acc2 >>> (bits2 - 10)) &&& 31) ::
        convertBits8to5 rest acc2 (bits2 - 10)
    else
      ((acc2 >>> (bits2 - 5)) &&& 31) :: convertBits8to5 rest acc2 (bits2 - 5)

/-- The address-data construction of the first `GenerateCardanoAddress`
(line 224): 32-byte key check, network-ID switch (0/1), then the data
bytes — header `(networkID << 4) | addressType`, credential-type byte 0,
Blake2b-224 payment hash, and for the base type a second credential-type
byte 0 and the (identical) stake hash. -/
def cardanoAddressData1 (publicKey : List Nat) (networkID addressType : Nat) :
    Except String (List Nat) :=
  if publicKey.length ≠ 32 then .error "invalid public key length"
  else if networkID ≠ 0 ∧ networkID ≠ 1 then .error "unsupported network ID"
  else
    match addressType with
    | 0 => .ok (((networkID <<< 4) % 256 ||| addressType % 256) :: 0 ::
        (blake2b224 publicKey ++ 0 :: blake2b224 publicKey))
    | 1 => .ok (((networkID <<< 4) % 256 ||| addressType % 256) :: 0 ::
        blake2b224 publicKey)
    | _ => .error "unsupported address type"

/-- The first `GenerateCardanoAddress` (line 224): build the data bytes,
pick the hrp from the network ID, 8-to-5-bit convert, bech32m-encode and
validate. -/
def GenerateCardanoAddress1 (publicKey : List Nat) (networkID addressType : Nat) :
    Except String (List Char) :=
  match cardanoAddressData1 publicKey networkID addressType with
  | .error e => .error e
  | .ok data =>
    let hrp := if networkID = 0 then "addr".toList else "addr_test".toList
    match encodeBech32m hrp (convertBits8to5 data 0 0) with
    | .error e => .error e
    | .ok address =>
      match validateBech32m address with
      | .error e => .error e
      | .ok _ => .ok address

/-- The payload construction of the second `GenerateCardanoAddress`
(line 652): normalize a 33/65-byte key to 32 bytes, then header byte
`(networkId << 4) | addressType` followed by the first 28 bytes of the
Blake2b-256 hash (twice for the base address type 0). -/
def GenerateCardanoAddress2payload (publicKeyBytes : List Nat)
    (addressType networkId : Nat) : Except String (List Nat) :=
  if publicKeyBytes.length = 33 then
    .ok (((networkId <<< 4) % 256 ||| addressType % 256) ::
      ((blake2b256 (publicKeyBytes.drop 1)).take 28 ++
        (if addressType = 0 then (blake2b256 (publicKeyBytes.drop 1)).take 28 else [])))
  else if publicKeyBytes.length = 65 then
    .ok (((networkId <<< 4) % 256 ||| addressType % 256) ::
      ((blake2b256 ((publicKeyBytes.drop 1).take 32)).take 28 ++
        (if addressType = 0 then
          (blake2b256 ((publicKeyBytes.drop 1).take 32)).take 28 else [])))
  else if publicKeyBytes.length ≠ 32 then .error "invalid public key length"
  else
    .ok (((networkId <<< 4) % 256 ||| addressType % 256) ::
      ((blake2b256 publicKeyBytes).take 28 ++
        (if addressType = 0 then (blake2b256 publicKeyBytes).take 28 else [])))

/-- The second `GenerateCardanoAddress` (line 652): build the payload and
bech32m-encode it under the fixed hrp "addr" (no 8-to-5-bit conversion),
then validate. -/
def GenerateCardanoAddress2 (publicKeyBytes : List Nat)
    (addressType networkId : Nat) : Except String (List Char) :=
  match GenerateCardanoAddress2payload publicKeyBytes addressType networkId with
  | .error e => .error e
  | .ok payload =>
    match encodeBech32m "addr".toList payload with
    | .error e => .error e
    | .ok address =>
      match validateBech32m address with
      | .error e => .error e
      | .ok _ => .ok address

/-- The header-byte formula as the specification states it: the address
type in the high 4 bits and the network id in the low 4 bits. -/
def claimHeaderByte (addressType networkID : Nat) : Nat :=
  (addressType <<< 4) % 256 ||| networkID % 256

/-! ## `eth_signer.go`: the EVM transaction signer fee-mode selection -/

/-- `EthTransactionRequest` of `eth_signer.go`: the JSON request fields
that drive the fee-mode decision; `none` models a `nil` pointer. -/
structure EthTransactionRequest where
  toAddr : List Char
  gas : Option Int
  gasPrice : Option Int
  maxPriorityFeePerGas : Option Int
  maxFeePerGas : Option Int
  value : Option Int
  nonce : Option Int
  chainID : Option Int
  deriving DecidableEq

/-- The go-ethereum transaction kind `SignTransaction` builds. -/
inductive EthTxKind where
  | legacyTx | dynamicFeeTx
  deriving DecidableEq

/-- The transaction object handed to go-ethereum for signing: its kind
and the fee fields the two branches populate. -/
structure EthBuiltTx where
  kind : EthTxKind
  nonce : Int
  gas : Int
  value : Int
  chainID : Int
  gasPrice : Option Int
  gasTipCap : Option Int
  gasFeeCap : Option Int
  deriving DecidableEq

/-- `EthTransactionSigner.SignTransaction` up to the built transaction
object (`encoding/json` parsing as a parameter, go-ethereum signing of
the built object abstracted away): decode and validate the key, parse,
require nonce/gas/chainId, then pick EIP-1559 when BOTH fee-market fields
are present and legacy when gasPrice is present — erroring only when
neither mode is available, with EIP-1559 taking the branch when both are
supplied. -/
def EthTransactionSigner.SignTransaction
    (parse : List Char → Option EthTransactionRequest)
    (rawTx privateKeyHex : List Char) : Except String EthBuiltTx :=
  match hexDecode privateKeyHex with
  | none => .error "invalid private key format"
  | some privateKeyBytes =>
    match ToECDSA privateKeyBytes with
    | .error e => .error e
    | .ok _ =>
      match parse rawTx with
      | none => .error "invalid transaction data format"
      | some txReq =>
        if txReq.nonce = none then .error "nonce is required"
        else if txReq.gas = none then .error "gas is required"
        else if txReq.chainID = none then .error "chainId is required"
        else
          let useEIP1559 := txReq.maxPriorityFeePerGas.isSome && txReq.maxFeePerGas.isSome
          let useLegacy := txReq.gasPrice.isSome
          if !useEIP1559 && !useLegacy then
            .error "either gasPrice (for legacy tx) or maxPriorityFeePerGas and maxFeePerGas (for EIP-1559 tx) is required"
          else if useEIP1559 then
            .ok ⟨.dynamicFeeTx, txReq.nonce.getD 0, txReq.gas.getD 0,
                 txReq.value.getD 0, txReq.chainID.getD 0,
                 none, txReq.maxPriorityFeePerGas, txReq.maxFeePerGas⟩
          else
            .ok ⟨.legacyTx, txReq.nonce.getD 0, txReq.gas.getD 0,
                 txReq.value.getD 0, txReq.chainID.getD 0,
                 txReq.gasPrice, none, none⟩

/-! ## `btc_signer.go`: the Bitcoin signing scripts -/

/-- `txscript.ScriptBuilder.AddData`: the canonical data push — small
ints as OP_0/OP_1..OP_16/OP_1NEGATE, up to 75 bytes as a direct push,
then OP_PUSHDATA1/2 with a little-endian length. -/
def scriptAddData (data : List Nat) : List Nat :=
  if data.length = 0 then [0]
  else if data.length = 1 ∧ data.headD 0 = 0 then [0]
  else if data.length = 1 ∧ 1 ≤ data.headD 0 ∧ data.headD 0 ≤ 16 then
    [80 + data.headD 0]
  else if data.length = 1 ∧ data.headD 0 = 129 then [79]
  else if data.length ≤ 75 then data.length :: data
  else if data.length ≤ 255 then 76 :: data.length :: data
  else 77 :: data.length % 256 :: data.length / 256 % 256 :: data

/-- `createP2PKHScript` of `btc_signer.go`: pushes
`sigHash[:32] ++ [hashType]` as the "signature" — the raw signature hash
with the sighash byte, no ECDSA signing — followed by a push of the
compressed public key. -/
def createP2PKHScript (sigHash : List Nat) (privKeyScalar : Nat)
    (hashType : Nat) : List Nat :=
  scriptAddData (sigHash.take 32 ++ [hashType % 256]) ++
    scriptAddData (CompressPubkey (secpBase privKeyScalar))

/-- The signing loop of `BtcTransactionSigner.SignTransaction`: for each
input index, compute the signature hash of the input's locking script
(`txscript.CalcSignatureHash` as a parameter) with `SigHashAll = 1` and
set that input's unlocking script via `createP2PKHScript` under the
btcec-parsed private key. -/
def BtcTransactionSigner.signScripts
    (calcSigHash : List Nat → Nat → Nat → List Nat)
    (inputScripts : List (List Nat)) (privKeyBytes : List Nat) :
    List (List Nat) :=
  (List.range inputScripts.length).map (fun i =>
    createP2PKHScript (calcSigHash (inputScripts.getD i []) 1 i)
      (PrivKeyFromBytes privKeyBytes) 1)

/-! ## `part_001` / `aptos_key_generator.go`: TON and Aptos derivation -/

/-- `TonKeyGenerator.PublicKeyToAddress`: 32-byte check, then
`"EQ" ++ hex(Keccak256(pub)[:20])`. -/
def TonKeyGenerator.PublicKeyToAddress (publicKey : List Char) :
    Except String (List Char) :=
  match hexDecode publicKey with
  | none => .error "failed to decode public key"
  | some publicKeyBytes =>
    if publicKeyBytes.length ≠ 32 then .error "invalid public key length"
    else .ok ("EQ".toList ++ hexEncode ((keccak256 publicKeyBytes).take 20))

/-- `TonKeyGenerator.DeriveKeyPairFromPrivateKey` (`part_001`): on a
32-byte seed the code calls `ed25519.PrivateKey(seed).Public()` directly
— `Public` copies `priv[32:]` (empty for a 32-byte slice) into a zeroed
32-byte buffer, so the "derived" public key is 32 zero bytes. -/
def TonKeyGenerator.DeriveKeyPairFromPrivateKey (privateKey : List Char) :
    Except String (List Char × List Char) :=
  match hexDecode privateKey with
  | none => .error "failed to decode private key"
  | some privateKeyBytes =>
    if privateKeyBytes.length ≠ 64 then
      if privateKeyBytes.length = 32 then
        let publicKey := hexEncode (ed25519Public privateKeyBytes)
        match TonKeyGenerator.PublicKeyToAddress publicKey with
        | .error _ => .error "failed to generate address"
        | .ok address => .ok (address, publicKey)
      else .error "invalid private key length"
    else
      let publicKey := hexEncode (ed25519Public privateKeyBytes)
      match TonKeyGenerator.PublicKeyToAddress publicKey with
      | .error _ => .error "failed to generate address"
      | .ok address => .ok (address, publicKey)

/-- `AptosKeyGenerator.PublicKeyToAddress`: 32-byte check, then
`"0x" ++ hex(SHA3-256(pub))`. -/
def AptosKeyGenerator.PublicKeyToAddress (publicKey : List Char) :
    Except String (List Char) :=
  match hexDecode publicKey with
  | none => .error "failed to decode public key"
  | some publicKeyBytes =>
    if publicKeyBytes.length ≠ 32 then .error "invalid public key length"
    else .ok ("0x".toList ++ hexEncode (sha3_256 publicKeyBytes))

/-- `AptosKeyGenerator.DeriveKeyPairFromPrivateKey`: on a 32-byte seed
the code calls `ed25519.GenerateKey(nil)` — which draws a FRESH key from
`crypto/rand` (here the parameter `r`) — and then copies the seed over
only the first 32 bytes, leaving the random key's public half in place. -/
def AptosKeyGenerator.DeriveKeyPairFromPrivateKey
    (pubOfSeed : List Nat → List Nat) (r : List Nat) (privateKey : List Char) :
    Except String (List Char × List Char) :=
  match hexDecode privateKey with
  | none => .error "failed to decode private key"
  | some bs =>
    if bs.length ≠ 64 then
      if bs.length = 32 then
        let fullPrivateKey := bs ++ (ed25519GenerateKey pubOfSeed r).2.drop 32
        let publicKey := hexEncode (ed25519Public fullPrivateKey)
        match AptosKeyGenerator.PublicKeyToAddress publicKey with
        | .error e => .error e
        | .ok address => .ok (address, publicKey)
      else .error "invalid private key length"
    else
      let publicKey := hexEncode (ed25519Public bs)
      match AptosKeyGenerator.PublicKeyToAddress publicKey with
      | .error e => .error e
      | .ok address => .ok (address, publicKey)

/-! ## Theorems: byte and hex utilities -/

theorem hexDigitVal_hexDigit (n : Nat) (h : n < 16) :
    hexDigitVal (hexDigit n) = some n := by
  interval_cases n <;> decide

theorem hexDecode_hexEncode (bs : List Nat) (h : isBytes bs) :
    hexDecode (hexEncode bs) = some bs := by
  induction bs with
  | nil => rfl
  | cons b tl ih =>
    have hb : b < 256 := h b (by simp)
    have htl : isBytes tl := fun x hx => h x (by simp [hx])
    have h1 : b / 16 < 16 := by omega
    have h2 : b % 16 < 16 := by omega
    simp only [hexEncode, hexDecode, hexDigitVal_hexDigit _ h1, hexDigitVal_hexDigit _ h2,
      ih htl, Option.bind_some, Option.bind_eq_bind]
    have : 16 * (b / 16) + b % 16 = b := by omega
    simp [this, pure]

theorem hexEncode_length (bs : List Nat) : (hexEncode bs).length = 2 * bs.length := by
  induction bs with
  | nil => rfl
  | cons b tl ih => simp [hexEncode] at ih ⊢; omega

/-! ## Theorems: the bech32m polymod -/

theorem Nat.shiftLeft_xor_distrib (x y n : Nat) :
    (x ^^^ y) <<< n = (x <<< n) ^^^ (y <<< n) := by
  apply Nat.eq_of_testBit_eq
  intro i
  simp only [Nat.testBit_shiftLeft, Nat.testBit_xor]
  cases Decidable.em (i ≥ n) with
  | inl h => simp [h]
  | inr h => simp [h]

theorem Nat.shiftRight_xor_distrib (x y n : Nat) :
    (x ^^^ y) >>> n = (x >>> n) ^^^ (y >>> n) := by
  apply Nat.eq_of_testBit_eq
  intro i
  simp [Nat.testBit_shiftRight, Nat.testBit_xor]

theorem bech32Step_value (chk v : Nat) :
    bech32Step chk v = v ^^^ bech32Step chk 0 := by
  unfold bech32Step
  apply Nat.eq_of_testBit_eq
  intro i
  simp only [Nat.testBit_xor, Nat.zero_testBit, Bool.xor_false]
  cases ((chk &&& 0x1ffffff) <<< 5).testBit i <;>
    cases (v.testBit i) <;>
    cases (bech32Gens (chk >>> 25)).testBit i <;> rfl

theorem bech32Step_xor_low (chk v d : Nat) (hd : d < 2 ^ 25) :
    bech32Step (chk ^^^ d) v = bech32Step chk v ^^^ (d <<< 5) := by
  unfold bech32Step
  have hsr : (chk ^^^ d) >>> 25 = chk >>> 25 := by
    rw [Nat.shiftRight_xor_distrib, Nat.shiftRight_eq_div_pow d 25,
      Nat.div_eq_of_lt hd, Nat.xor_zero]
  have hand : (chk ^^^ d) &&& 0x1ffffff = (chk &&& 0x1ffffff) ^^^ d := by
    rw [Nat.and_xor_distrib_right]
    congr 1
    have h25 : (0x1ffffff : Nat) = 2 ^ 25 - 1 := by norm_num
    rw [h25, Nat.and_pow_two_sub_one_eq_mod, Nat.mod_eq_of_lt hd]
  rw [hsr, hand, Nat.shiftLeft_xor_distrib]
  apply Nat.eq_of_testBit_eq
  intro i
  simp only [Nat.testBit_xor]
  cases ((chk &&& 0x1ffffff) <<< 5).testBit i <;>
    cases ((d <<< 5).testBit i) <;>
    cases (v.testBit i) <;>
    cases (bech32Gens (chk >>> 25)).testBit i <;> rfl

theorem bech32Steps_xor (cs : List Nat) (chk d : Nat)
    (hd : d * 2 ^ (5 * cs.length) < 2 ^ 30) :
    List.foldl bech32Step (chk ^^^ d) cs =
      List.foldl bech32Step chk cs ^^^ (d <<< (5 * cs.length)) := by
  induction cs generalizing chk d with
  | nil => simp
  | cons c cs ih =>
    have hd25 : d < 2 ^ 25 := by
      have h32 : (2 : Nat) ^ 5 ≤ 2 ^ (5 * (c :: cs).length) := by
        apply Nat.pow_le_pow_right (by norm_num)
        simp [List.length_cons]
      by_contra hcon
      push_neg at hcon
      have hmul : 2 ^ 25 * 2 ^ 5 ≤ d * 2 ^ (5 * (c :: cs).length) :=
        Nat.mul_le_mul hcon h32
      rw [← pow_add] at hmul
      omega
    have hstep : bech32Step (chk ^^^ d) c = bech32Step chk c ^^^ (d <<< 5) :=
      bech32Step_xor_low chk c d hd25
    have hlen : 5 * (c :: cs).length = 5 * cs.length + 5 := by
      simp [List.length_cons]; ring
    have hd2 : (d <<< 5) * 2 ^ (5 * cs.length) < 2 ^ 30 := by
      rw [Nat.shiftLeft_eq, mul_assoc, ← pow_add]
      rw [hlen] at hd
      calc d * 2 ^ (5 + 5 * cs.length) = d * 2 ^ (5 * cs.length + 5) := by ring_nf
        _ < 2 ^ 30 := hd
    simp only [List.foldl_cons, hstep, ih _ _ hd2, Nat.shiftLeft_shiftLeft, hlen]
    rw [Nat.add_comm 5 (5 * cs.length)]

theorem val32_from (cs : List Nat) (a : Nat) :
    List.foldl (fun x y => (x <<< 5) ^^^ y) a cs = (a <<< (5 * cs.length)) ^^^ val32 cs := by
  induction cs generalizing a with
  | nil => simp [val32]
  | cons c cs ih =>
    have hv : val32 (c :: cs) = (c <<< (5 * cs.length)) ^^^ val32 cs := by
      show List.foldl (fun x y => (x <<< 5) ^^^ y) 0 (c :: cs) = _
      simp only [List.foldl_cons, Nat.zero_shiftLeft, Nat.zero_xor]
      exact ih c
    have hlen : 5 * (c :: cs).length = 5 * cs.length + 5 := by
      simp [List.length_cons]; ring
    simp only [List.foldl_cons]
    rw [ih ((a <<< 5) ^^^ c), hv, Nat.shiftLeft_xor_distrib, Nat.shiftLeft_shiftLeft, hlen,
      Nat.xor_assoc]
    have : 5 + 5 * cs.length = 5 * cs.length + 5 := by ring
    rw [this]

theorem val32_cons (c : Nat) (cs : List Nat) :
    val32 (c :: cs) = (c <<< (5 * cs.length)) ^^^ val32 cs := by
  show List.foldl (fun x y => (x <<< 5) ^^^ y) 0 (c :: cs) = _
  simp only [List.foldl_cons, Nat.zero_shiftLeft, Nat.zero_xor]
  exact val32_from cs c

theorem bech32Steps_val32 (cs : List Nat) (chk : Nat) (hlen : cs.length ≤ 6)
    (hel : ∀ v ∈ cs, v < 32) :
    List.foldl bech32Step chk cs =
      List.foldl bech32Step chk (List.replicate cs.length 0) ^^^ val32 cs := by
  induction cs generalizing chk with
  | nil => simp [val32]
  | cons c cs ih =>
    have hc : c < 32 := hel c (by simp)
    have hel2 : ∀ v ∈ cs, v < 32 := fun v hv => hel v (by simp [hv])
    have hlen2 : cs.length ≤ 6 := by simp [List.length_cons] at hlen; omega
    have hstep : bech32Step chk c = bech32Step chk 0 ^^^ c := by
      rw [bech32Step_value chk c, Nat.xor_comm]
    have hbound : c * 2 ^ (5 * cs.length) < 2 ^ 30 := by
      have h1 : c * 2 ^ (5 * cs.length) ≤ 31 * 2 ^ 25 := by
        apply Nat.mul_le_mul (by omega)
        apply Nat.pow_le_pow_right (by norm_num)
        simp [List.length_cons] at hlen
        omega
      omega
    simp only [List.foldl_cons, List.replicate_succ, hstep]
    rw [bech32Steps_xor cs (bech32Step chk 0) c hbound, ih _ hlen2 hel2,
      val32_cons, Nat.xor_assoc]
    congr 1
    rw [Nat.xor_comm]

theorem bech32Gens_lt (t : Nat) : bech32Gens t < 2 ^ 30 := by
  unfold bech32Gens
  apply Nat.xor_lt_two_pow (by split <;> norm_num)
  apply Nat.xor_lt_two_pow (by split <;> norm_num)
  apply Nat.xor_lt_two_pow (by split <;> norm_num)
  apply Nat.xor_lt_two_pow (by split <;> norm_num)
  split <;> norm_num

theorem bech32Step_lt (chk v : Nat) (hv : v < 2 ^ 30) : bech32Step chk v < 2 ^ 30 := by
  unfold bech32Step
  apply Nat.xor_lt_two_pow _ (bech32Gens_lt _)
  apply Nat.xor_lt_two_pow _ hv
  have h1 : chk &&& 0x1ffffff < 2 ^ 25 := by
    have : (0x1ffffff : Nat) = 2 ^ 25 - 1 := by norm_num
    rw [this, Nat.and_pow_two_sub_one_eq_mod]
    exact Nat.mod_lt _ (by norm_num)
  rw [Nat.shiftLeft_eq]
  calc (chk &&& 0x1ffffff) * 2 ^ 5 < 2 ^ 25 * 2 ^ 5 := by
        apply Nat.mul_lt_mul_of_lt_of_le h1 (le_refl _) (by norm_num)
    _ = 2 ^ 30 := by norm_num

theorem bech32Steps_lt (values : List Nat) (chk : Nat) (hchk : chk < 2 ^ 30)
    (hv : ∀ v ∈ values, v < 2 ^ 30) :
    List.foldl bech32Step chk values < 2 ^ 30 := by
  induction values generalizing chk with
  | nil => exact hchk
  | cons v vs ih =>
    simp only [List.foldl_cons]
    exact ih _ (bech32Step_lt chk v (hv v (by simp))) (fun x hx => hv x (by simp [hx]))

theorem shiftLeft_xor_eq_add (a c : Nat) (hc : c < 32) : (a <<< 5) ^^^ c = a * 32 + c := by
  apply Nat.eq_of_testBit_eq
  intro i
  have hr : a * 32 + c = 2 ^ 5 * a + c := by ring_nf
  rw [hr, Nat.testBit_mul_pow_two_add a (show c < 2 ^ 5 by omega) i,
    Nat.testBit_xor, Nat.testBit_shiftLeft]
  by_cases hi : i < 5
  · simp [decide_eq_false (by omega : ¬ i ≥ 5), hi]
  · have hc2 : c.testBit i = false := Nat.testBit_lt_two_pow (by
      calc c < 32 := hc
        _ ≤ 2 ^ i := by
          calc (32 : Nat) = 2 ^ 5 := by norm_num
            _ ≤ 2 ^ i := Nat.pow_le_pow_right (by norm_num) (by omega))
    simp [decide_eq_true (by omega : i ≥ 5), hi, hc2]

theorem val32_fold_base32 (cs : List Nat) (a : Nat) (hel : ∀ v ∈ cs, v < 32) :
    List.foldl (fun x y => (x <<< 5) ^^^ y) a cs =
      List.foldl (fun x y => x * 32 + y) a cs := by
  induction cs generalizing a with
  | nil => rfl
  | cons c cs ih =>
    have hc : c < 32 := hel c (by simp)
    simp only [List.foldl_cons, shiftLeft_xor_eq_add a c hc]
    exact ih _ (fun v hv => hel v (by simp [hv]))

theorem val32_chunks30 (d : Nat) (hd : d < 2 ^ 30) : val32 (chunks30 d) = d := by
  have h31 : (0x1f : Nat) = 2 ^ 5 - 1 := by norm_num
  have hmem : ∀ x : Nat, x &&& 0x1f < 32 := by
    intro x
    rw [h31, Nat.and_pow_two_sub_one_eq_mod]
    exact Nat.mod_lt _ (by norm_num)
  have hel : ∀ v ∈ chunks30 d, v < 32 := by
    intro v hv
    simp only [chunks30, List.mem_cons, List.not_mem_nil, or_false] at hv
    rcases hv with h | h | h | h | h | h <;> (subst h; exact hmem _)
  have he : ∀ s : Nat, (d >>> s) &&& 0x1f = d / 2 ^ s % 32 := by
    intro s
    rw [h31, Nat.and_pow_two_sub_one_eq_mod, Nat.shiftRight_eq_div_pow]
  show List.foldl (fun x y => (x <<< 5) ^^^ y) 0 (chunks30 d) = d
  rw [val32_fold_base32 _ _ hel]
  simp only [chunks30, List.foldl_cons, List.foldl_nil, he]
  have e25 : (2 : Nat) ^ 25 = 33554432 := by norm_num
  have e20 : (2 : Nat) ^ 20 = 1048576 := by norm_num
  have e15 : (2 : Nat) ^ 15 = 32768 := by norm_num
  have e10 : (2 : Nat) ^ 10 = 1024 := by norm_num
  have e5 : (2 : Nat) ^ 5 = 32 := by norm_num
  have e0 : (2 : Nat) ^ 0 = 1 := by norm_num
  have e30 : (2 : Nat) ^ 30 = 1073741824 := by norm_num
  rw [e25, e20, e15, e10, e5, e0] at *
  rw [e30] at hd
  omega

theorem chunks30_length (d : Nat) : (chunks30 d).length = 6 := rfl

theorem chunks30_mem_lt (d : Nat) : ∀ v ∈ chunks30 d, v < 32 := by
  have hmem : ∀ x : Nat, x &&& 0x1f < 32 := by
    intro x
    rw [show (0x1f : Nat) = 2 ^ 5 - 1 from by norm_num, Nat.and_pow_two_sub_one_eq_mod]
    exact Nat.mod_lt _ (by norm_num)
  intro v hv
  simp only [chunks30, List.mem_cons, List.not_mem_nil, or_false] at hv
  rcases hv with h | h | h | h | h | h <;> (subst h; exact hmem _)

theorem bech32mChecksum_eq_chunks (hrp : List Char) (data : List Nat) :
    bech32mChecksum hrp data =
      chunks30 (bech32Polymod (hrpExpand hrp ++ data ++ [0, 0, 0, 0, 0, 0]) ^^^ bech32mConst) :=
  rfl

theorem bech32mChecksum_length (hrp : List Char) (data : List Nat) :
    (bech32mChecksum hrp data).length = 6 := rfl

theorem bech32mChecksum_mem_lt (hrp : List Char) (data : List Nat) :
    ∀ v ∈ bech32mChecksum hrp data, v < 32 := by
  rw [bech32mChecksum_eq_chunks]
  exact chunks30_mem_lt _

theorem hrpExpand_mem_lt (hrp : List Char) : ∀ v ∈ hrpExpand hrp, v < 2 ^ 30 := by
  intro v hv
  simp only [hrpExpand, List.mem_append, List.mem_map, List.mem_singleton] at hv
  rcases hv with (⟨c, _, hc⟩ | h) | ⟨c, _, hc⟩
  · subst hc
    rw [Nat.shiftRight_eq_div_pow]
    have h1 : c.toNat < 2 ^ 32 := c.val.toNat_lt
    have h2 : (2 : Nat) ^ 32 = 2 ^ 27 * 2 ^ 5 := by norm_num
    apply lt_of_lt_of_le (Nat.div_lt_of_lt_mul _) (le_refl ((2 : Nat) ^ 30))
    calc c.toNat < 2 ^ 32 := h1
      _ ≤ 2 ^ 5 * 2 ^ 30 := by norm_num
  · subst h; norm_num
  · subst hc
    rw [show (0x1f : Nat) = 2 ^ 5 - 1 from by norm_num, Nat.and_pow_two_sub_one_eq_mod]
    calc c.toNat % 2 ^ 5 < 2 ^ 5 := Nat.mod_lt _ (by norm_num)
      _ ≤ 2 ^ 30 := by norm_num

theorem bech32Polymod_lt (values : List Nat) (hv : ∀ v ∈ values, v < 2 ^ 30) :
    bech32Polymod values < 2 ^ 30 :=
  bech32Steps_lt values 1 (by norm_num) hv

/-- The central checksum identity: `verifyChecksum` accepts exactly the
checksum that `bech32mChecksum` computed. -/
theorem verifyChecksum_bech32mChecksum (hrp : List Char) (data : List Nat)
    (hdata : ∀ v ∈ data, v < 32) :
    verifyChecksum hrp data (bech32mChecksum hrp data) = true := by
  unfold verifyChecksum
  have hpre : ∀ v ∈ hrpExpand hrp ++ data ++ [0, 0, 0, 0, 0, 0], v < 2 ^ 30 := by
    intro v hv
    simp only [List.append_assoc, List.mem_append] at hv
    rcases hv with h | h | h
    · exact hrpExpand_mem_lt hrp v h
    · calc v < 32 := hdata v h
        _ ≤ 2 ^ 30 := by norm_num
    · simp only [List.mem_cons, List.not_mem_nil, or_false] at h
      rcases h with h | h | h | h | h | h <;> (subst h; norm_num)
  set P0 : Nat := bech32Polymod (hrpExpand hrp ++ data ++ [0, 0, 0, 0, 0, 0]) with hP0
  have hP0lt : P0 < 2 ^ 30 := bech32Polymod_lt _ hpre
  have hDlt : P0 ^^^ bech32mConst < 2 ^ 30 :=
    Nat.xor_lt_two_pow hP0lt (by norm_num [bech32mConst])
  rw [bech32mChecksum_eq_chunks, ← hP0]
  have hfold : bech32Polymod (hrpExpand hrp ++ data ++ chunks30 (P0 ^^^ bech32mConst)) =
      List.foldl bech32Step (bech32Polymod (hrpExpand hrp ++ data))
        (chunks30 (P0 ^^^ bech32mConst)) := by
    simp [bech32Polymod, List.foldl_append]
  rw [hfold]
  rw [bech32Steps_val32 _ _ (by rw [chunks30_length]) (chunks30_mem_lt _)]
  rw [val32_chunks30 _ hDlt, chunks30_length]
  have hzero : List.replicate 6 (0 : Nat) = [0, 0, 0, 0, 0, 0] := rfl
  have hfold0 : List.foldl bech32Step (bech32Polymod (hrpExpand hrp ++ data))
      [0, 0, 0, 0, 0, 0] = P0 := by
    rw [hP0]
    simp [bech32Polymod, List.foldl_append]
  rw [hzero, hfold0, Nat.xor_cancel_left]
  simp

theorem charsetIndexOf_charsetGet (v : Nat) (hv : v < 32) :
    charsetIndexOf (charsetGet v) = some v := by
  interval_cases v <;> rfl

theorem charsetGet_ne_one (v : Nat) : (charsetGet v == '1') = false := by
  by_cases hv : v < 32
  · interval_cases v <;> rfl
  · unfold charsetGet
    rw [List.getD_eq_getElem?_getD, List.getElem?_eq_none (by simp [bech32Charset]; omega)]
    rfl

theorem decodeDataPart_map_charsetGet (ws : List Nat) (h : ∀ v ∈ ws, v < 32) :
    decodeDataPart (ws.map charsetGet) = some ws := by
  induction ws with
  | nil => rfl
  | cons w ws ih =>
    have hw : w < 32 := h w (by simp)
    simp only [List.map_cons, decodeDataPart, charsetIndexOf_charsetGet w hw,
      ih (fun v hv => h v (by simp [hv])), Option.bind_some, Option.bind_eq_bind]
    rfl

theorem findIdx_one_append (hrp rest : List Char) (i : Nat)
    (h : ∀ c ∈ hrp, (c == '1') = false) :
    List.findIdx? (fun c => c == '1') (hrp ++ '1' :: rest) i = some (i + hrp.length) := by
  induction hrp generalizing i with
  | nil => simp [List.findIdx?_cons]
  | cons c t ih =>
    have hc : (c == '1') = false := h c (by simp)
    simp only [List.cons_append, List.findIdx?_cons, hc, Bool.false_eq_true, if_false]
    rw [ih (i + 1) (fun x hx => h x (by simp [hx]))]
    simp [List.length_cons]
    omega

theorem decodeDataPart_append_none (xs ys : List Char) (hys : decodeDataPart ys = none) :
    decodeDataPart (xs ++ ys) = none := by
  induction xs with
  | nil => simpa using hys
  | cons c xs ih =>
    simp only [List.cons_append, decodeDataPart, Option.bind_eq_bind]
    cases charsetIndexOf c <;> simp [ih]

/-- Decoding the exact string `hrp ++ "1" ++ charset(data ++ checksum)`
recovers `(hrp, data)`. -/
theorem decodeBech32m_encoded (hrp : List Char) (data cs : List Nat)
    (hone : '1' ∉ hrp) (hlen1 : 1 ≤ hrp.length)
    (hdata : ∀ v ∈ data, v < 32)
    (hcs6 : cs.length = 6) (hcslt : ∀ v ∈ cs, v < 32) :
    decodeBech32mWithChecksum (hrp ++ '1' :: (data ++ cs).map charsetGet) =
      if verifyChecksum hrp data cs then .ok (hrp, data) else .error "invalid checksum" := by
  have hno1 : ∀ c ∈ hrp, (c == '1') = false := by
    intro c hc
    rw [beq_eq_false_iff_ne]
    intro h
    exact hone (h ▸ hc)
  have hcomb : ∀ v ∈ data ++ cs, v < 32 := by
    intro v hv
    rcases List.mem_append.mp hv with h | h
    · exact hdata v h
    · exact hcslt v h
  have hfind := findIdx_one_append hrp ((data ++ cs).map charsetGet) 0 hno1
  rw [Nat.zero_add] at hfind
  have hslen : (hrp ++ '1' :: (data ++ cs).map charsetGet).length =
      hrp.length + 1 + (data.length + 6) := by
    simp [List.length_append, List.length_cons, List.length_map, hcs6]
    omega
  have htake : (hrp ++ '1' :: (data ++ cs).map charsetGet).take hrp.length = hrp :=
    List.take_left hrp _
  have hdrop : (hrp ++ '1' :: (data ++ cs).map charsetGet).drop (hrp.length + 1) =
      (data ++ cs).map charsetGet := by
    rw [List.drop_append 1]
    rfl
  have hdlen : (data ++ cs).length = data.length + 6 := by simp [hcs6]
  have h66 : data.length + 6 - 6 = data.length := by omega
  unfold decodeBech32mWithChecksum
  rw [hfind]
  dsimp only
  rw [hslen, if_neg (by omega), hdrop, decodeDataPart_map_charsetGet _ hcomb]
  dsimp only
  rw [hdlen, if_neg (by omega), h66, htake, List.take_left data cs, List.drop_left data cs]

/-- `encodeBech32m` succeeds on in-range input whose HRP avoids `'1'` and
whose total length fits the window, and returns the expected string. -/
theorem encodeBech32m_ok (hrp : List Char) (data : List Nat)
    (hchars : ∀ c ∈ hrp, 33 ≤ c.toNat ∧ c.toNat ≤ 126)
    (hone : '1' ∉ hrp)
    (hlen1 : 1 ≤ hrp.length) (hlen83 : hrp.length ≤ 83)
    (hdata : ∀ v ∈ data, v < 32)
    (htot : hrp.length + data.length ≤ 143) :
    encodeBech32m hrp data =
      .ok (hrp ++ '1' :: (data ++ bech32mChecksum hrp data).map charsetGet) := by
  have hno1 : ∀ c ∈ hrp, (c == '1') = false := by
    intro c hc
    rw [beq_eq_false_iff_ne]
    intro h
    exact hone (h ▸ hc)
  have hg1 : hrp.any (fun c => c.toNat < 33 ∨ 126 < c.toNat) = false := by
    rw [List.any_eq_false]
    intro c hc
    have := hchars c hc
    simp
    omega
  have hg2 : data.any (fun v => 32 ≤ v) = false := by
    rw [List.any_eq_false]
    intro v hv
    have := hdata v hv
    simp
    omega
  have hfind := findIdx_one_append hrp ((data ++ bech32mChecksum hrp data).map charsetGet) 0 hno1
  rw [Nat.zero_add] at hfind
  have hslen : (hrp ++ '1' :: (data ++ bech32mChecksum hrp data).map charsetGet).length =
      hrp.length + 1 + (data.length + 6) := by
    simp [List.length_append, List.length_cons, List.length_map, bech32mChecksum_length]
    omega
  have hdec := decodeBech32m_encoded hrp data (bech32mChecksum hrp data) hone hlen1 hdata
    (bech32mChecksum_length hrp data) (bech32mChecksum_mem_lt hrp data)
  rw [verifyChecksum_bech32mChecksum hrp data hdata, if_pos rfl] at hdec
  unfold encodeBech32m
  rw [hg1, hg2]
  dsimp only
  simp only [Bool.false_eq_true, if_false]
  rw [hslen, if_neg (by omega), hfind]
  dsimp only
  rw [if_neg (by omega), hdec]

theorem shiftRight_and_1f (x s : Nat) : (x >>> s) &&& 0x1f = x / 2 ^ s % 32 := by
  rw [show (0x1f : Nat) = 2 ^ 5 - 1 from by norm_num, Nat.and_pow_two_sub_one_eq_mod,
    Nat.shiftRight_eq_div_pow]

theorem chunks30_val32_digits (a b c d e f : Nat)
    (ha : a < 32) (hb : b < 32) (hc : c < 32) (hd : d < 32) (he : e < 32) (hf : f < 32) :
    chunks30 (val32 [a, b, c, d, e, f]) = [a, b, c, d, e, f] := by
  have hel : ∀ v ∈ [a, b, c, d, e, f], v < 32 := by
    intro v hv
    simp only [List.mem_cons, List.not_mem_nil, or_false] at hv
    rcases hv with h | h | h | h | h | h <;> (subst h; omega)
  show chunks30 (List.foldl (fun x y => (x <<< 5) ^^^ y) 0 [a, b, c, d, e, f]) = _
  rw [val32_fold_base32 _ _ hel]
  simp only [List.foldl_cons, List.foldl_nil, chunks30, shiftRight_and_1f]
  rw [show (2 : Nat) ^ 25 = 33554432 from by norm_num,
    show (2 : Nat) ^ 20 = 1048576 from by norm_num,
    show (2 : Nat) ^ 15 = 32768 from by norm_num,
    show (2 : Nat) ^ 10 = 1024 from by norm_num,
    show (2 : Nat) ^ 5 = 32 from by norm_num,
    show (2 : Nat) ^ 0 = 1 from by norm_num]
  simp only [List.cons.injEq, and_true]
  exact ⟨by omega, by omega, by omega, by omega, by omega, by omega⟩

/-- A six-word candidate that differs from the computed checksum never
verifies: the last six polymod words determine the attached checksum. -/
theorem verifyChecksum_unique (hrp : List Char) (data cs : List Nat)
    (hdata : ∀ v ∈ data, v < 32) (hcs6 : cs.length = 6) (hcslt : ∀ v ∈ cs, v < 32)
    (hne : cs ≠ bech32mChecksum hrp data) :
    verifyChecksum hrp data cs = false := by
  by_contra hcon
  rw [Bool.not_eq_false] at hcon
  have htrue := verifyChecksum_bech32mChecksum hrp data hdata
  unfold verifyChecksum at hcon htrue
  rw [beq_iff_eq] at hcon htrue
  have hfoldc : bech32Polymod (hrpExpand hrp ++ data ++ cs) =
      List.foldl bech32Step (bech32Polymod (hrpExpand hrp ++ data)) cs := by
    simp [bech32Polymod, List.foldl_append]
  have hfold0 : bech32Polymod (hrpExpand hrp ++ data ++ bech32mChecksum hrp data) =
      List.foldl bech32Step (bech32Polymod (hrpExpand hrp ++ data)) (bech32mChecksum hrp data) := by
    simp [bech32Polymod, List.foldl_append]
  rw [hfoldc] at hcon
  rw [hfold0] at htrue
  rw [bech32Steps_val32 _ _ (by omega) hcslt, hcs6] at hcon
  rw [bech32Steps_val32 _ _ (by rw [bech32mChecksum_length]) (bech32mChecksum_mem_lt hrp data),
    bech32mChecksum_length] at htrue
  have hval : val32 cs = val32 (bech32mChecksum hrp data) := by
    have h2 := hcon.trans htrue.symm
    exact Nat.xor_right_inj.mp h2
  apply hne
  rcases cs with _ | ⟨a, _ | ⟨b, _ | ⟨c, _ | ⟨d, _ | ⟨e, _ | ⟨f, rest⟩⟩⟩⟩⟩⟩ <;>
    simp only [List.length_nil, List.length_cons] at hcs6 <;> try omega
  have hrest : rest = [] := by
    cases rest with
    | nil => rfl
    | cons x t => simp [List.length_cons] at hcs6
  subst hrest
  have hm : ∀ x ∈ [a, b, c, d, e, f], x < 32 := hcslt
  have hdig := chunks30_val32_digits a b c d e f
    (hm a (by simp)) (hm b (by simp)) (hm c (by simp)) (hm d (by simp))
    (hm e (by simp)) (hm f (by simp))
  have hpre : ∀ v ∈ hrpExpand hrp ++ data ++ [0, 0, 0, 0, 0, 0], v < 2 ^ 30 := by
    intro v hv
    simp only [List.append_assoc, List.mem_append] at hv
    rcases hv with h | h | h
    · exact hrpExpand_mem_lt hrp v h
    · calc v < 32 := hdata v h
        _ ≤ 2 ^ 30 := by norm_num
    · simp only [List.mem_cons, List.not_mem_nil, or_false] at h
      rcases h with h | h | h | h | h | h <;> (subst h; norm_num)
  have hDlt : bech32Polymod (hrpExpand hrp ++ data ++ [0, 0, 0, 0, 0, 0]) ^^^ bech32mConst
      < 2 ^ 30 :=
    Nat.xor_lt_two_pow (bech32Polymod_lt _ hpre) (by norm_num [bech32mConst])
  have hval0 : val32 (bech32mChecksum hrp data) =
      bech32Polymod (hrpExpand hrp ++ data ++ [0, 0, 0, 0, 0, 0]) ^^^ bech32mConst := by
    rw [bech32mChecksum_eq_chunks]
    exact val32_chunks30 _ hDlt
  calc [a, b, c, d, e, f] = chunks30 (val32 [a, b, c, d, e, f]) := hdig.symm
    _ = chunks30 (val32 (bech32mChecksum hrp data)) := by rw [hval]
    _ = chunks30 (bech32Polymod (hrpExpand hrp ++ data ++ [0, 0, 0, 0, 0, 0]) ^^^ bech32mConst) :=
        by rw [hval0]
    _ = bech32mChecksum hrp data := (bech32mChecksum_eq_chunks hrp data).symm

theorem decode_leading_one (s : List Char) :
    decodeBech32mWithChecksum ('1' :: s) = .error "invalid separator position" := by
  unfold decodeBech32mWithChecksum
  rw [List.findIdx?_cons]
  simp

theorem decode_bad_symbol (hrp : List Char) (data : List Nat) (ch : Char)
    (hone : '1' ∉ hrp) (hlen1 : 1 ≤ hrp.length) (hdata : ∀ v ∈ data, v < 32)
    (hch : charsetIndexOf ch = none) :
    decodeBech32mWithChecksum
      (hrp ++ '1' :: ((data ++ bech32mChecksum hrp data).map charsetGet ++ [ch])) =
      .error "invalid character in data" := by
  have hno1 : ∀ c ∈ hrp, (c == '1') = false := by
    intro c hc
    rw [beq_eq_false_iff_ne]
    intro h
    exact hone (h ▸ hc)
  have hfind := findIdx_one_append hrp
    ((data ++ bech32mChecksum hrp data).map charsetGet ++ [ch]) 0 hno1
  rw [Nat.zero_add] at hfind
  have hslen : (hrp ++ '1' :: ((data ++ bech32mChecksum hrp data).map charsetGet ++ [ch])).length
      = hrp.length + 1 + (data.length + 6 + 1) := by
    simp [List.length_append, List.length_cons, List.length_map, bech32mChecksum_length]
    omega
  have hdrop : (hrp ++ '1' :: ((data ++ bech32mChecksum hrp data).map charsetGet ++ [ch])).drop
      (hrp.length + 1) = (data ++ bech32mChecksum hrp data).map charsetGet ++ [ch] := by
    rw [List.drop_append 1]
    rfl
  have hbad : decodeDataPart ((data ++ bech32mChecksum hrp data).map charsetGet ++ [ch]) =
      none := by
    apply decodeDataPart_append_none
    simp only [decodeDataPart, hch, Option.bind_eq_bind, Option.none_bind]
  unfold decodeBech32mWithChecksum
  rw [hfind]
  dsimp only
  rw [hslen, if_neg (by omega), hdrop, hbad]

/-- Claim C3, amended.  Round trip: for every HRP whose characters lie in
ASCII 33..126 and do not include `'1'` itself, with 1 ≤ |hrp| ≤ 83 and
|hrp| + |words| ≤ 143, `encodeBech32m` succeeds and
`decodeBech32mWithChecksum` recovers exactly `(hrp, words)`.  Rejections:
decode fails on a string whose separator position is 0, on a data symbol
outside the charset, and on any six-word checksum other than the computed
one.  (The claim's unrestricted HRP/length and its `[1, 83]` upper bound
for the decode separator are refuted by the counterexample.) -/
theorem bech32m_roundtrip_amended :
    (∀ (hrp : List Char) (data : List Nat),
      (∀ ch ∈ hrp, 33 ≤ ch.toNat ∧ ch.toNat ≤ 126) → '1' ∉ hrp →
      1 ≤ hrp.length → hrp.length ≤ 83 → (∀ v ∈ data, v < 32) →
      hrp.length + data.length ≤ 143 →
      encodeBech32m hrp data =
        .ok (hrp ++ '1' :: (data ++ bech32mChecksum hrp data).map charsetGet) ∧
      decodeBech32mWithChecksum
        (hrp ++ '1' :: (data ++ bech32mChecksum hrp data).map charsetGet) =
        .ok (hrp, data)) ∧
    (∀ s : List Char, decodeBech32mWithChecksum ('1' :: s) =
      .error "invalid separator position") ∧
    (∀ (hrp : List Char) (data : List Nat) (ch : Char),
      '1' ∉ hrp → 1 ≤ hrp.length → (∀ v ∈ data, v < 32) → charsetIndexOf ch = none →
      decodeBech32mWithChecksum
        (hrp ++ '1' :: ((data ++ bech32mChecksum hrp data).map charsetGet ++ [ch])) =
        .error "invalid character in data") ∧
    (∀ (hrp : List Char) (data cs : List Nat),
      '1' ∉ hrp → 1 ≤ hrp.length → (∀ v ∈ data, v < 32) →
      cs.length = 6 → (∀ v ∈ cs, v < 32) → cs ≠ bech32mChecksum hrp data →
      decodeBech32mWithChecksum (hrp ++ '1' :: (data ++ cs).map charsetGet) =
        .error "invalid checksum") := by
  refine ⟨?_, decode_leading_one, decode_bad_symbol, ?_⟩
  · intro hrp data hchars hone hlen1 hlen83 hdata htot
    refine ⟨encodeBech32m_ok hrp data hchars hone hlen1 hlen83 hdata htot, ?_⟩
    rw [decodeBech32m_encoded hrp data (bech32mChecksum hrp data) hone hlen1 hdata
      (bech32mChecksum_length hrp data) (bech32mChecksum_mem_lt hrp data),
      verifyChecksum_bech32mChecksum hrp data hdata, if_pos rfl]
  · intro hrp data cs hone hlen1 hdata hcs6 hcslt hne
    rw [decodeBech32m_encoded hrp data cs hone hlen1 hdata hcs6 hcslt,
      verifyChecksum_unique hrp data cs hdata hcs6 hcslt hne, if_neg (by simp)]

/-- Claim C3, counterexample to the claim as stated: the single-character
HRP `"1"` is within ASCII 33..126, yet `encodeBech32m` rejects it (the
separator scan finds the HRP's own `'1'` at position 0); and a valid
84-character HRP produces a string whose separator sits at position 84,
which `decodeBech32mWithChecksum` accepts rather than rejecting per the
claimed `[1, 83]` window. -/
theorem bech32m_claim_counterexample :
    encodeBech32m ['1'] [] = .error "invalid separator position" ∧
    decodeBech32mWithChecksum (List.replicate 84 'a' ++ '1' ::
      (([0] ++ bech32mChecksum (List.replicate 84 'a') [0]).map charsetGet)) =
      .ok (List.replicate 84 'a', [0]) := by
  constructor
  · rfl
  · rw [decodeBech32m_encoded (List.replicate 84 'a') [0]
      (bech32mChecksum (List.replicate 84 'a') [0])
      (by simp [List.mem_replicate]) (by simp) (by simp)
      (bech32mChecksum_length _ _) (bech32mChecksum_mem_lt _ _),
      verifyChecksum_bech32mChecksum _ _ (by simp), if_pos rfl]

/-- Witness for the amended claim C3 at the concrete HRP `"addr"` and
words `[0, 1, 2]`. -/
theorem bech32m_roundtrip_witness :
    encodeBech32m ['a', 'd', 'd', 'r'] [0, 1, 2] =
      .ok (['a', 'd', 'd', 'r'] ++ '1' ::
        ([0, 1, 2] ++ bech32mChecksum ['a', 'd', 'd', 'r'] [0, 1, 2]).map charsetGet) ∧
    decodeBech32mWithChecksum
      (['a', 'd', 'd', 'r'] ++ '1' ::
        ([0, 1, 2] ++ bech32mChecksum ['a', 'd', 'd', 'r'] [0, 1, 2]).map charsetGet) =
      .ok (['a', 'd', 'd', 'r'], [0, 1, 2]) :=
  bech32m_roundtrip_amended.1 ['a', 'd', 'd', 'r'] [0, 1, 2]
    (by decide) (by decide) (by decide) (by decide) (by decide) (by decide)

/-! ## Theorems: byte serialization -/

theorem natToBeBytes_length (w n : Nat) : (natToBeBytes w n).length = w := by
  induction w generalizing n with
  | zero => rfl
  | succ w ih => simp [natToBeBytes, ih]

theorem natToBeBytes_isBytes (w n : Nat) : isBytes (natToBeBytes w n) := by
  induction w generalizing n with
  | zero => intro b hb; simp [natToBeBytes] at hb
  | succ w ih =>
    intro b hb
    simp only [natToBeBytes, List.mem_append, List.mem_singleton] at hb
    rcases hb with h | h
    · exact ih (n / 256) b h
    · subst h; exact Nat.mod_lt _ (by norm_num)

theorem beBytesToNat_append_single (xs : List Nat) (b : Nat) :
    beBytesToNat (xs ++ [b]) = 256 * beBytesToNat xs + b := by
  unfold beBytesToNat
  rw [List.foldl_append]
  simp [List.foldl_cons]
  ring

theorem beBytesToNat_natToBeBytes (w n : Nat) (h : n < 2 ^ (8 * w)) :
    beBytesToNat (natToBeBytes w n) = n := by
  induction w generalizing n with
  | zero =>
    simp only [Nat.mul_zero, pow_zero] at h
    interval_cases n
    rfl
  | succ w ih =>
    have hp : (2 : Nat) ^ (8 * (w + 1)) = 2 ^ (8 * w) * 256 := by
      rw [show 8 * (w + 1) = 8 * w + 8 from by ring, pow_add]
      norm_num
    rw [hp] at h
    have hdiv : n / 256 < 2 ^ (8 * w) := by
      apply Nat.div_lt_of_lt_mul
      omega
    simp only [natToBeBytes, beBytesToNat_append_single, ih _ hdiv]
    omega

theorem hexDecode_FromECDSA (k : Nat) :
    hexDecode (hexEncode (FromECDSA k)) = some (FromECDSA k) :=
  hexDecode_hexEncode _ (natToBeBytes_isBytes 32 k)

theorem beBytesToNat_FromECDSA (k : Nat) (hN : k < secpN) :
    beBytesToNat (FromECDSA k) = k := by
  apply beBytesToNat_natToBeBytes
  calc k < secpN := hN
    _ < 2 ^ (8 * 32) := by norm_num [secpN]

theorem ToECDSA_FromECDSA (k : Nat) (h0 : 0 < k) (hN : k < secpN) :
    ToECDSA (FromECDSA k) = .ok k := by
  unfold ToECDSA
  rw [if_neg (by simp [FromECDSA, natToBeBytes_length])]
  simp only [beBytesToNat_FromECDSA k hN]
  rw [if_neg (by omega), if_neg (by omega)]

/-! ## Theorems: claim C1 -/

/-- Claim C1: generate/derive round trip.  For every chain type the
`key_generator.go` factory supports, the strategy it returns satisfies:
deriving from the private key that `GenerateKeyPair` produced (a random
scalar in `[1, N-1]`) returns exactly the generated `(address, publicKey)`.
The same holds for the real ed25519 `SolanaKeyGenerator` of the second
implementation set, for any seed-to-pubkey map of the ed25519 library. -/
theorem generate_derive_roundtrip :
    (∀ (chain : List Char) (g : GenKind) (k : Nat),
      NewKeyGenerator chain = .ok g → 0 < k → k < secpN →
      kgDeriveKeyPairFromPrivateKey g (kgGenerateKeyPair g k).2.2 =
        .ok ((kgGenerateKeyPair g k).1, (kgGenerateKeyPair g k).2.1)) ∧
    (∀ (pubOfSeed : List Nat → List Nat) (r : List Nat),
      r.length = 32 → (pubOfSeed r).length = 32 → isBytes r → isBytes (pubOfSeed r) →
      SolanaKeyGenerator.DeriveKeyPairFromPrivateKey
        (SolanaKeyGenerator.GenerateKeyPair pubOfSeed r).2.2 =
        .ok ((SolanaKeyGenerator.GenerateKeyPair pubOfSeed r).1,
             (SolanaKeyGenerator.GenerateKeyPair pubOfSeed r).2.1)) := by
  constructor
  · intro chain g k _ h0 hN
    unfold kgGenerateKeyPair kgDeriveKeyPairFromPrivateKey
    rw [hexDecode_FromECDSA]
    cases g <;>
      simp only [ToECDSA_FromECDSA k h0 hN] <;>
      simp [PrivKeyFromBytes, beBytesToNat_FromECDSA k hN, Nat.mod_eq_of_lt hN]
  · intro pubOfSeed r hr hpr hrb hpb
    unfold SolanaKeyGenerator.GenerateKeyPair SolanaKeyGenerator.DeriveKeyPairFromPrivateKey
      ed25519GenerateKey
    have hbytes : isBytes (r ++ pubOfSeed r) := by
      intro b hb
      rcases List.mem_append.mp hb with h | h
      · exact hrb b h
      · exact hpb b h
    rw [hexDecode_hexEncode _ hbytes]
    have hdrop : (r ++ pubOfSeed r).drop 32 = pubOfSeed r := by
      rw [show (32 : Nat) = r.length from hr.symm, List.drop_left]
    simp only [hdrop]
    rw [if_neg (by simp [List.length_append, hr, hpr])]

/-- Witness for claim C1: the Ethereum strategy at scalar 1 and the real
Solana generator at a concrete seed with a concrete seed-to-pubkey map. -/
theorem generate_derive_roundtrip_witness :
    (kgDeriveKeyPairFromPrivateKey .ethGen (kgGenerateKeyPair .ethGen 1).2.2 =
      .ok ((kgGenerateKeyPair .ethGen 1).1, (kgGenerateKeyPair .ethGen 1).2.1)) ∧
    (SolanaKeyGenerator.DeriveKeyPairFromPrivateKey
      (SolanaKeyGenerator.GenerateKeyPair (fun s => s) (List.replicate 32 7)).2.2 =
      .ok ((SolanaKeyGenerator.GenerateKeyPair (fun s => s) (List.replicate 32 7)).1,
           (SolanaKeyGenerator.GenerateKeyPair (fun s => s) (List.replicate 32 7)).2.1)) :=
  ⟨generate_derive_roundtrip.1 ("ethereum".toList) .ethGen 1 rfl (by decide)
      (by decide),
   generate_derive_roundtrip.2 (fun s => s) (List.replicate 32 7) (by decide) (by decide)
      (by decide) (by decide)⟩

/-! ## Theorems: claim C2 -/

theorem hexDigit_lower (n : Nat) (h : n < 16) :
    (48 ≤ (hexDigit n).toNat ∧ (hexDigit n).toNat ≤ 57) ∨
    (97 ≤ (hexDigit n).toNat ∧ (hexDigit n).toNat ≤ 102) := by
  interval_cases n <;> decide

theorem hexEncode_lower (bs : List Nat) (h : isBytes bs) :
    ∀ c ∈ hexEncode bs,
      (48 ≤ c.toNat ∧ c.toNat ≤ 57) ∨ (97 ≤ c.toNat ∧ c.toNat ≤ 102) := by
  induction bs with
  | nil => intro c hc; simp [hexEncode] at hc
  | cons b tl ih =>
    intro c hc
    have hb : b < 256 := h b (by simp)
    simp only [hexEncode, List.mem_cons] at hc
    rcases hc with h1 | h1 | h1
    · subst h1; exact hexDigit_lower _ (by omega)
    · subst h1; exact hexDigit_lower _ (by omega)
    · exact ih (fun x hx => h x (by simp [hx])) c h1

theorem asciiToLower_upper (c : Char) (h1 : 97 ≤ c.toNat) (h2 : c.toNat ≤ 102) :
    asciiToLower (Char.ofNat (c.toNat - 32)) = c := by
  obtain ⟨t, h97, h102, hct⟩ : ∃ t, 97 ≤ t ∧ t ≤ 102 ∧ c = Char.ofNat t :=
    ⟨c.toNat, h1, h2, (Char.ofNat_toNat c).symm⟩
  subst hct
  interval_cases t <;> decide

theorem asciiToLower_checksum (c : Char) (nib : Nat)
    (hc : (48 ≤ c.toNat ∧ c.toNat ≤ 57) ∨ (97 ≤ c.toNat ∧ c.toNat ≤ 102)) :
    asciiToLower (if 57 < c.toNat ∧ 7 < nib then Char.ofNat (c.toNat - 32) else c) = c := by
  rcases hc with ⟨h1, h2⟩ | ⟨h1, h2⟩
  · rw [if_neg (by omega)]
    unfold asciiToLower
    rw [if_neg (by omega)]
  · by_cases hn : 7 < nib
    · rw [if_pos ⟨by omega, hn⟩]
      exact asciiToLower_upper c h1 h2
    · rw [if_neg (by omega)]
      unfold asciiToLower
      rw [if_neg (by omega)]

theorem zipWith_checksum_lower (buf : List Char) (nibs : List Nat)
    (hlow : ∀ c ∈ buf,
      (48 ≤ c.toNat ∧ c.toNat ≤ 57) ∨ (97 ≤ c.toNat ∧ c.toNat ≤ 102))
    (hlen : buf.length ≤ nibs.length) :
    (List.zipWith
      (fun c nib => if 57 < c.toNat ∧ 7 < nib then Char.ofNat (c.toNat - 32) else c)
      buf nibs).map asciiToLower = buf := by
  induction buf generalizing nibs with
  | nil => simp
  | cons c buf ih =>
    cases nibs with
    | nil => simp [List.length_cons] at hlen
    | cons n nibs =>
      simp only [List.zipWith_cons_cons, List.map_cons]
      rw [asciiToLower_checksum c n (hlow c (by simp)),
        ih nibs (fun x hx => hlow x (by simp [hx]))
          (by simp [List.length_cons] at hlen ⊢; omega)]

theorem keccakRound_length (st : List Nat) (rc : Nat) : (keccakRound st rc).length = 25 := by
  unfold keccakRound
  have h : (keccakChi (keccakRhoPi (keccakTheta st))).length = 25 := by
    simp [keccakChi, List.length_map, List.length_range]
  cases hc : keccakChi (keccakRhoPi (keccakTheta st)) with
  | nil => rw [hc] at h; simp at h
  | cons a rest =>
    rw [hc] at h
    simp only [List.length_cons] at h ⊢
    omega

theorem foldl_keccakRound_length (l : List Nat) (st : List Nat) (h : st.length = 25) :
    (List.foldl keccakRound st l).length = 25 := by
  induction l generalizing st with
  | nil => exact h
  | cons rc l ih => exact ih _ (keccakRound_length st rc)

theorem keccakF_length (st : List Nat) (h : st.length = 25) : (keccakF st).length = 25 :=
  foldl_keccakRound_length _ _ h

theorem keccakAbsorb_length (st block : List Nat) : (keccakAbsorb st block).length = 25 := by
  unfold keccakAbsorb
  apply keccakF_length
  simp [List.length_map, List.length_range]

theorem natToLeBytes_length (w n : Nat) : (natToLeBytes w n).length = w := by
  induction w generalizing n with
  | zero => rfl
  | succ w ih => simp [natToLeBytes, ih]

theorem flatMap_leBytes_length (L : List Nat) :
    (L.flatMap (natToLeBytes 8)).length = 8 * L.length := by
  induction L with
  | nil => rfl
  | cons a L ih =>
    simp only [List.flatMap_cons, List.length_append, natToLeBytes_length,
      List.length_cons, ih]
    omega

theorem keccak256With_length (dsbyte : Nat) (msg : List Nat) :
    (keccak256With dsbyte msg).length = 32 := by
  unfold keccak256With
  have hst : ∀ (blocks : List (List Nat)) (st : List Nat), st.length = 25 →
      (blocks.foldl keccakAbsorb st).length = 25 := by
    intro blocks
    induction blocks with
    | nil => intro st h; exact h
    | cons b bs ih => intro st _; exact ih _ (keccakAbsorb_length st b)
  have h25 : ((chunks136 (keccakPad dsbyte msg).length (keccakPad dsbyte msg)).foldl
      keccakAbsorb (List.replicate 25 0)).length = 25 :=
    hst _ _ (by simp)
  rw [flatMap_leBytes_length, List.length_take, h25]
  rfl

theorem keccak256_length (msg : List Nat) : (keccak256 msg).length = 32 :=
  keccak256With_length 0x01 msg

theorem hashNibbles_length (bs : List Nat) : (hashNibbles bs).length = 2 * bs.length := by
  induction bs with
  | nil => rfl
  | cons b tl ih =>
    unfold hashNibbles at ih ⊢
    simp only [List.flatMap_cons, List.length_append, List.length_cons, List.length_nil, ih]
    omega

theorem FromECDSAPub_isBytes (pt : Nat × Nat) : isBytes (FromECDSAPub pt) := by
  intro b hb
  unfold FromECDSAPub at hb
  rcases List.mem_cons.mp hb with h | h
  · omega
  · rcases List.mem_append.mp h with h2 | h2
    · exact natToBeBytes_isBytes 32 pt.1 b h2
    · exact natToBeBytes_isBytes 32 pt.2 b h2

theorem FromECDSAPub_length (pt : Nat × Nat) : (FromECDSAPub pt).length = 65 := by
  unfold FromECDSAPub
  simp only [List.length_cons, List.length_append, natToBeBytes_length]

theorem UnmarshalPubkey_FromECDSAPub (x y : Nat) (hx : x < secpP) (hy : y < secpP)
    (hc : secpOnCurve x y = true) :
    UnmarshalPubkey (FromECDSAPub (x, y)) = .ok (x, y) := by
  have hpN : secpP < 2 ^ (8 * 32) := by decide
  have hxN : x < 2 ^ (8 * 32) := by omega
  have hyN : y < 2 ^ (8 * 32) := by omega
  show UnmarshalPubkey (4 :: (natToBeBytes 32 x ++ natToBeBytes 32 y)) = .ok (x, y)
  unfold UnmarshalPubkey
  dsimp only
  rw [if_pos ⟨rfl, by simp [List.length_append, natToBeBytes_length]⟩]
  have htk : (natToBeBytes 32 x ++ natToBeBytes 32 y).take 32 = natToBeBytes 32 x := by
    have h := List.take_left (natToBeBytes 32 x) (natToBeBytes 32 y)
    rwa [natToBeBytes_length] at h
  have hdr : (natToBeBytes 32 x ++ natToBeBytes 32 y).drop 32 = natToBeBytes 32 y := by
    have h := List.drop_left (natToBeBytes 32 x) (natToBeBytes 32 y)
    rwa [natToBeBytes_length] at h
  rw [htk, hdr, beBytesToNat_natToBeBytes 32 x hxN, beBytesToNat_natToBeBytes 32 y hyN,
    if_pos ⟨hx, hy, hc⟩]

/-- Claim C2: the EVM-family address algorithm.  `PublicKeyToAddress` on a
valid 65-byte uncompressed public key produces the EIP-55 checksummed form
of the last 20 bytes of Keccak-256 of the 64 coordinate bytes (the `0x04`
prefix removed); lower-casing that address gives exactly `0x` plus the
plain hex of those 20 bytes; and the 32-byte private key `0x00…01` derives
the known deterministic checksum address for scalar 1. -/
theorem eth_address_algorithm :
    (∀ x y : Nat, x < secpP → y < secpP → secpOnCurve x y = true →
      EthKeyGenerator.PublicKeyToAddress (hexEncode (FromECDSAPub (x, y))) =
        .ok (addressHex ((keccak256 (natToBeBytes 32 x ++ natToBeBytes 32 y)).drop 12))) ∧
    (∀ addr : List Nat, isBytes addr → addr.length = 20 →
      (addressHex addr).map asciiToLower = '0' :: 'x' :: hexEncode addr) ∧
    EthKeyGenerator.DeriveKeyPairFromPrivateKey
      "0000000000000000000000000000000000000000000000000000000000000001".toList =
      .ok ("0x7E5F4552091A69125d5DfCb7b8C2659029395Bdf".toList,
        ("0479be667ef9dcbbac55a06295ce870b07029bfcdb2dce28d959f2815b16f81798" ++
         "483ada7726a3c4655da4fbfc0e1108a8fd17b448a68554199c47d08ffb10d4b8").toList) := by
  refine ⟨?_, ?_, ?_⟩
  · intro x y hx hy hc
    unfold EthKeyGenerator.PublicKeyToAddress
    rw [hexDecode_hexEncode _ (FromECDSAPub_isBytes (x, y))]
    dsimp only
    rw [if_pos (FromECDSAPub_length (x, y)), UnmarshalPubkey_FromECDSAPub x y hx hy hc]
    rfl
  · intro addr hb h20
    show ('0' :: 'x' :: checksumHex addr).map asciiToLower = _
    simp only [List.map_cons]
    rw [show asciiToLower '0' = '0' from rfl, show asciiToLower 'x' = 'x' from rfl]
    unfold checksumHex
    rw [zipWith_checksum_lower (hexEncode addr) _ (hexEncode_lower addr hb)
      (by rw [hexEncode_length, hashNibbles_length, keccak256_length]; omega)]
  · set_option maxRecDepth 40000 in rfl

/-- Witness for claim C2 at the generator point and a concrete address. -/
theorem eth_address_algorithm_witness :
    EthKeyGenerator.PublicKeyToAddress (hexEncode (FromECDSAPub (secpGx, secpGy))) =
      .ok (addressHex ((keccak256 (natToBeBytes 32 secpGx ++ natToBeBytes 32 secpGy)).drop 12)) ∧
    (addressHex (List.replicate 20 0)).map asciiToLower =
      '0' :: 'x' :: hexEncode (List.replicate 20 0) :=
  ⟨eth_address_algorithm.1 secpGx secpGy (by decide) (by decide) (by decide),
   eth_address_algorithm.2.1 (List.replicate 20 0) (by decide) (by decide)⟩

/-! ## Theorems: claims C4, C9, C10 -/

theorem take_exact {α : Type} (l1 l2 : List α) (n : Nat) (h : l1.length = n) :
    (l1 ++ l2).take n = l1 := by
  rw [← h, List.take_left]

/-- Claim C4: the Ed25519 signature law for the Solana signer.  Relative
to the `crypto/ed25519` contract — signing yields a 64-byte canonical
signature that verifies under the signer's public key and under no other
key's — `SignTransaction`/`VerifyTransaction` satisfy the law, and both
sides hash the raw transaction bytes with SHA-256: the signature is over
`sha256(rawTx)` and the reported transaction hash is its hex. -/
theorem ed25519_signature_law
    (edSign : List Nat → List Nat → List Nat)
    (verifyCore : List Nat → List Nat → List Nat → Bool)
    (pubOf : List Nat → List Nat)
    (hsiglen : ∀ priv msg, (edSign priv msg).length = 64)
    (hsigtop : ∀ priv msg, (edSign priv msg).getD 63 0 &&& 224 = 0)
    (hsigbytes : ∀ priv msg, isBytes (edSign priv msg))
    (hpublen : ∀ priv, (pubOf priv).length = 32)
    (hpubbytes : ∀ priv, isBytes (pubOf priv))
    (hok : ∀ priv msg, verifyCore (pubOf priv) msg (edSign priv msg) = true)
    (hcross : ∀ priv priv2 msg, pubOf priv2 ≠ pubOf priv →
      verifyCore (pubOf priv2) msg (edSign priv msg) = false)
    (jsonOk : List Char → Bool) (rawTx privateKeyHex : List Char) (priv : List Nat)
    (hdec : hexDecode privateKeyHex = some priv) (h64 : priv.length = 64)
    (hjson : jsonOk rawTx = true) :
    SolanaTransactionSigner.SignTransaction edSign jsonOk rawTx privateKeyHex =
      .ok (hexEncode (edSign priv (sha256 (rawTx.map Char.toNat))),
           hexEncode (sha256 (rawTx.map Char.toNat))) ∧
    SolanaTransactionSigner.VerifyTransaction verifyCore rawTx
      (hexEncode (edSign priv (sha256 (rawTx.map Char.toNat))))
      (hexEncode (pubOf priv)) = .ok true ∧
    (∀ priv2 : List Nat, pubOf priv2 ≠ pubOf priv →
      SolanaTransactionSigner.VerifyTransaction verifyCore rawTx
        (hexEncode (edSign priv (sha256 (rawTx.map Char.toNat))))
        (hexEncode (pubOf priv2)) = .ok false) := by
  refine ⟨?_, ?_, ?_⟩
  · unfold SolanaTransactionSigner.SignTransaction
    rw [hdec]
    dsimp only
    rw [if_neg (by omega), if_neg (by simp [hjson])]
  · unfold SolanaTransactionSigner.VerifyTransaction
    rw [hexDecode_hexEncode _ (hpubbytes priv)]
    dsimp only
    rw [if_neg (by rw [hpublen]; omega), hexDecode_hexEncode _ (hsigbytes priv _)]
    dsimp only
    unfold ed25519Verify
    rw [if_neg (by rw [hsiglen, hsigtop]; simp), hok]
  · intro priv2 hne
    unfold SolanaTransactionSigner.VerifyTransaction
    rw [hexDecode_hexEncode _ (hpubbytes priv2)]
    dsimp only
    rw [if_neg (by rw [hpublen]; omega), hexDecode_hexEncode _ (hsigbytes priv _)]
    dsimp only
    unfold ed25519Verify
    rw [if_neg (by rw [hsiglen, hsigtop]; simp), hcross priv priv2 _ hne]

theorem toyPub_length (p : List Nat) : (toyPub p).length = 32 := by
  unfold toyPub
  simp [List.length_map, List.length_take, List.length_append, List.length_replicate]

theorem toyPub_isBytes (p : List Nat) : isBytes (toyPub p) := by
  intro b hb
  unfold toyPub at hb
  rcases List.mem_map.mp hb with ⟨a, _, ha⟩
  subst ha
  exact Nat.mod_lt _ (by norm_num)

theorem toySign_take (p m : List Nat) : (toySign p m).take 32 = toyPub p :=
  take_exact _ _ _ (toyPub_length p)

set_option maxRecDepth 40000 in
/-- Witness for claim C4: the signature law theorem applied to the toy
scheme at a concrete 64-byte key, raw transaction, and a second key whose
public half differs. -/
theorem ed25519_signature_law_witness :
    SolanaTransactionSigner.SignTransaction toySign (fun _ => true) ['x']
      (hexEncode (List.replicate 64 1)) =
      .ok (hexEncode (toySign (List.replicate 64 1) (sha256 (['x'].map Char.toNat))),
           hexEncode (sha256 (['x'].map Char.toNat))) ∧
    SolanaTransactionSigner.VerifyTransaction toyVerify ['x']
      (hexEncode (toySign (List.replicate 64 1) (sha256 (['x'].map Char.toNat))))
      (hexEncode (toyPub (List.replicate 64 1))) = .ok true ∧
    SolanaTransactionSigner.VerifyTransaction toyVerify ['x']
      (hexEncode (toySign (List.replicate 64 1) (sha256 (['x'].map Char.toNat))))
      (hexEncode (toyPub (List.replicate 64 2))) = .ok false := by
  have h := ed25519_signature_law toySign toyVerify toyPub
    (fun p m => by
      unfold toySign
      simp [List.length_append, toyPub_length])
    (fun p m => by
      unfold toySign
      rw [List.getD_eq_getElem?_getD, List.getElem?_append_right (by rw [toyPub_length]; omega)]
      simp [toyPub_length, List.getElem?_replicate])
    (fun p m => by
      intro b hb
      unfold toySign at hb
      rcases List.mem_append.mp hb with h2 | h2
      · exact toyPub_isBytes p b h2
      · rw [List.eq_of_mem_replicate h2]; norm_num)
    toyPub_length toyPub_isBytes
    (fun p m => by unfold toyVerify; rw [toySign_take]; simp)
    (fun p p2 m hne => by
      unfold toyVerify
      rw [toySign_take]
      exact decide_eq_false (fun h => hne h.symm))
    (fun _ => true) ['x'] (hexEncode (List.replicate 64 1)) (List.replicate 64 1)
    (by decide) (by decide) rfl
  exact ⟨h.1, h.2.1, h.2.2 (List.replicate 64 2) (by decide)⟩

/-- Counterexample to claim C9 as stated: the Solana verifier, given an
empty (hence 0-byte, malformed) signature and a well-formed 32-byte public
key, returns the boolean `false` rather than an error. -/
theorem verify_malformed_claim_counterexample :
    SolanaTransactionSigner.VerifyTransaction (fun _ _ _ => true) "tx".toList []
      (hexEncode (List.replicate 32 0)) = .ok false := by
  rfl

/-- Claim C9 (amended): for a well-formed 32-byte public key and a
hex-decodable signature whose byte length is not 64, the Solana and TON
verifiers return `.ok false` (Go `ed25519.Verify` itself returns `false`
on a wrong-length signature), while only the SUI verifier returns an
error. -/
theorem verify_malformed_signature_policy
    (verifyCore : List Nat → List Nat → List Nat → Bool)
    (rawTx signatureHex publicKeyHex : List Char) (pub sig : List Nat)
    (hpub : hexDecode publicKeyHex = some pub) (hplen : pub.length = 32)
    (hsig : hexDecode signatureHex = some sig) (hslen : sig.length ≠ 64) :
    SolanaTransactionSigner.VerifyTransaction verifyCore rawTx signatureHex
      publicKeyHex = .ok false ∧
    TonTransactionSigner.VerifyTransaction verifyCore rawTx signatureHex
      publicKeyHex = .ok false ∧
    SuiTransactionSigner.VerifyTransaction verifyCore rawTx signatureHex
      publicKeyHex = .error "invalid signature length" := by
  refine ⟨?_, ?_, ?_⟩
  · unfold SolanaTransactionSigner.VerifyTransaction
    rw [hpub]
    dsimp only
    rw [if_neg (by rw [hplen]; omega), hsig]
    dsimp only
    unfold ed25519Verify
    rw [if_pos (Or.inl hslen)]
  · unfold TonTransactionSigner.VerifyTransaction
    rw [hpub]
    dsimp only
    rw [if_neg (by rw [hplen]; omega), hsig]
    dsimp only
    unfold ed25519Verify
    rw [if_pos (Or.inl hslen)]
  · unfold SuiTransactionSigner.VerifyTransaction
    rw [hpub]
    dsimp only
    rw [if_neg (by rw [hplen]; omega), hsig]
    dsimp only
    rw [if_pos hslen]

set_option maxRecDepth 40000 in
/-- Witness for claim C9: the policy theorem applied at a 32-byte
all-zero public key and a 2-byte signature. -/
theorem verify_malformed_signature_policy_witness :
    SolanaTransactionSigner.VerifyTransaction (fun _ _ _ => true) "tx".toList
      "0000".toList (hexEncode (List.replicate 32 0)) = .ok false ∧
    TonTransactionSigner.VerifyTransaction (fun _ _ _ => true) "tx".toList
      "0000".toList (hexEncode (List.replicate 32 0)) = .ok false ∧
    SuiTransactionSigner.VerifyTransaction (fun _ _ _ => true) "tx".toList
      "0000".toList (hexEncode (List.replicate 32 0)) =
      .error "invalid signature length" :=
  verify_malformed_signature_policy (fun _ _ _ => true) "tx".toList
    "0000".toList (hexEncode (List.replicate 32 0)) (List.replicate 32 0)
    [0, 0] (by decide) (by decide) (by decide) (by decide)

theorem tag11_take (p q : List Char) (x : List Nat) (h : (p ++ q).length = 11) :
    (p ++ q ++ hexEncode x).take 11 = p ++ q :=
  take_exact _ _ _ h

theorem tag4_take (p q : List Char) (x : List Nat) (h : (p ++ q).length = 4) :
    (p ++ q ++ hexEncode x).take 4 = p ++ q :=
  take_exact _ _ _ h

/-- Claim C10: `NewTransactionSigner` maps "polkadot" to the signer with
`IsKusama = false` and "kusama" to the one with `IsKusama = true`; on any
decodable private key and JSON-accepted raw transaction both signers
succeed, the Kusama outputs start with `ksm_signed_` / `ksm_` and the
Polkadot outputs with `dot_signed_` / `dot_`, and the two signed payloads
and the two digests are never equal. -/
theorem kusama_polkadot_tagging
    (jsonOk : List Char → Bool) (rawTx privateKeyHex : List Char) (priv : List Nat)
    (hdec : hexDecode privateKeyHex = some priv) (hjson : jsonOk rawTx = true) :
    NewTransactionSigner "polkadot".toList = .ok (.polkadotSigner false) ∧
    NewTransactionSigner "kusama".toList = .ok (.polkadotSigner true) ∧
    PolkadotTransactionSigner.SignTransaction true jsonOk rawTx privateKeyHex =
      .ok ("ksm".toList ++ "_signed_".toList ++
             hexEncode (keccak256 (priv ++ rawTx.map Char.toNat)),
           "ksm".toList ++ "_".toList ++
             hexEncode (keccak256 (("ksm".toList ++ "_signed_".toList ++
               hexEncode (keccak256 (priv ++ rawTx.map Char.toNat))).map Char.toNat))) ∧
    PolkadotTransactionSigner.SignTransaction false jsonOk rawTx privateKeyHex =
      .ok ("dot".toList ++ "_signed_".toList ++
             hexEncode (keccak256 (priv ++ rawTx.map Char.toNat)),
           "dot".toList ++ "_".toList ++
             hexEncode (keccak256 (("dot".toList ++ "_signed_".toList ++
               hexEncode (keccak256 (priv ++ rawTx.map Char.toNat))).map Char.toNat))) ∧
    ("ksm".toList ++ "_signed_".toList ++
       hexEncode (keccak256 (priv ++ rawTx.map Char.toNat))).take 11 =
      "ksm_signed_".toList ∧
    ("ksm".toList ++ "_".toList ++
       hexEncode (keccak256 (("ksm".toList ++ "_signed_".toList ++
         hexEncode (keccak256 (priv ++ rawTx.map Char.toNat))).map Char.toNat))).take 4 =
      "ksm_".toList ∧
    ("dot".toList ++ "_signed_".toList ++
       hexEncode (keccak256 (priv ++ rawTx.map Char.toNat))).take 11 =
      "dot_signed_".toList ∧
    ("dot".toList ++ "_".toList ++
       hexEncode (keccak256 (("dot".toList ++ "_signed_".toList ++
         hexEncode (keccak256 (priv ++ rawTx.map Char.toNat))).map Char.toNat))).take 4 =
      "dot_".toList ∧
    ("ksm".toList ++ "_signed_".toList ++
       hexEncode (keccak256 (priv ++ rawTx.map Char.toNat))) ≠
      ("dot".toList ++ "_signed_".toList ++
       hexEncode (keccak256 (priv ++ rawTx.map Char.toNat))) ∧
    ("ksm".toList ++ "_".toList ++
       hexEncode (keccak256 (("ksm".toList ++ "_signed_".toList ++
         hexEncode (keccak256 (priv ++ rawTx.map Char.toNat))).map Char.toNat))) ≠
      ("dot".toList ++ "_".toList ++
       hexEncode (keccak256 (("dot".toList ++ "_signed_".toList ++
         hexEncode (keccak256 (priv ++ rawTx.map Char.toNat))).map Char.toNat))) := by
  have ht1 := tag11_take "ksm".toList "_signed_".toList
    (keccak256 (priv ++ rawTx.map Char.toNat)) (by decide)
  have ht2 := tag4_take "ksm".toList "_".toList
    (keccak256 (("ksm".toList ++ "_signed_".toList ++
      hexEncode (keccak256 (priv ++ rawTx.map Char.toNat))).map Char.toNat)) (by decide)
  have ht3 := tag11_take "dot".toList "_signed_".toList
    (keccak256 (priv ++ rawTx.map Char.toNat)) (by decide)
  have ht4 := tag4_take "dot".toList "_".toList
    (keccak256 (("dot".toList ++ "_signed_".toList ++
      hexEncode (keccak256 (priv ++ rawTx.map Char.toNat))).map Char.toNat)) (by decide)
  refine ⟨rfl, rfl, ?_, ?_, ht1, ht2, ht3, ht4, ?_, ?_⟩
  · unfold PolkadotTransactionSigner.SignTransaction
    rw [hdec]
    dsimp only
    rw [if_neg (fun hn => hn hjson)]
    rfl
  · unfold PolkadotTransactionSigner.SignTransaction
    rw [hdec]
    dsimp only
    rw [if_neg (fun hn => hn hjson)]
    rfl
  · intro heq
    have hcontra := congrArg (List.take 11) heq
    rw [ht1, ht3] at hcontra
    exact absurd hcontra (by decide)
  · intro heq
    have hcontra := congrArg (List.take 4) heq
    rw [ht2, ht4] at hcontra
    exact absurd hcontra (by decide)

/-- Witness for claim C10: the tagging theorem applied at the private key
hex "00" and raw transaction "tx". -/
theorem kusama_polkadot_tagging_witness :
    NewTransactionSigner "polkadot".toList = .ok (.polkadotSigner false) ∧
    NewTransactionSigner "kusama".toList = .ok (.polkadotSigner true) ∧
    PolkadotTransactionSigner.SignTransaction true (fun _ => true) "tx".toList
        "00".toList =
      .ok ("ksm".toList ++ "_signed_".toList ++
             hexEncode (keccak256 ([0] ++ "tx".toList.map Char.toNat)),
           "ksm".toList ++ "_".toList ++
             hexEncode (keccak256 (("ksm".toList ++ "_signed_".toList ++
               hexEncode (keccak256 ([0] ++ "tx".toList.map Char.toNat))).map Char.toNat))) ∧
    PolkadotTransactionSigner.SignTransaction false (fun _ => true) "tx".toList
        "00".toList =
      .ok ("dot".toList ++ "_signed_".toList ++
             hexEncode (keccak256 ([0] ++ "tx".toList.map Char.toNat)),
           "dot".toList ++ "_".toList ++
             hexEncode (keccak256 (("dot".toList ++ "_signed_".toList ++
               hexEncode (keccak256 ([0] ++ "tx".toList.map Char.toNat))).map Char.toNat))) ∧
    ("ksm".toList ++ "_signed_".toList ++
       hexEncode (keccak256 ([0] ++ "tx".toList.map Char.toNat))).take 11 =
      "ksm_signed_".toList ∧
    ("ksm".toList ++ "_".toList ++
       hexEncode (keccak256 (("ksm".toList ++ "_signed_".toList ++
         hexEncode (keccak256 ([0] ++ "tx".toList.map Char.toNat))).map Char.toNat))).take 4 =
      "ksm_".toList ∧
    ("dot".toList ++ "_signed_".toList ++
       hexEncode (keccak256 ([0] ++ "tx".toList.map Char.toNat))).take 11 =
      "dot_signed_".toList ∧
    ("dot".toList ++ "_".toList ++
       hexEncode (keccak256 (("dot".toList ++ "_signed_".toList ++
         hexEncode (keccak256 ([0] ++ "tx".toList.map Char.toNat))).map Char.toNat))).take 4 =
      "dot_".toList ∧
    ("ksm".toList ++ "_signed_".toList ++
       hexEncode (keccak256 ([0] ++ "tx".toList.map Char.toNat))) ≠
      ("dot".toList ++ "_signed_".toList ++
       hexEncode (keccak256 ([0] ++ "tx".toList.map Char.toNat))) ∧
    ("ksm".toList ++ "_".toList ++
       hexEncode (keccak256 (("ksm".toList ++ "_signed_".toList ++
         hexEncode (keccak256 ([0] ++ "tx".toList.map Char.toNat))).map Char.toNat))) ≠
      ("dot".toList ++ "_".toList ++
       hexEncode (keccak256 (("dot".toList ++ "_signed_".toList ++
         hexEncode (keccak256 ([0] ++ "tx".toList.map Char.toNat))).map Char.toNat))) :=
  kusama_polkadot_tagging (fun _ => true) "tx".toList "00".toList [0]
    (by decide) rfl

/-- Counterexample to claim C5 as stated: for network id 0 and address
type 1 both implementations put `(0 << 4) | 1 = 1` in the header byte,
while the claimed formula `(t << 4) | n` gives 16. -/
theorem cardano_header_claim_counterexample :
    cardanoAddressData1 (List.replicate 32 0) 0 1 =
      .ok (1 :: 0 :: blake2b224 (List.replicate 32 0)) ∧
    GenerateCardanoAddress2payload (List.replicate 32 0) 1 0 =
      .ok (1 :: ((blake2b256 (List.replicate 32 0)).take 28 ++ [])) ∧
    claimHeaderByte 1 0 = 16 := by
  refine ⟨rfl, rfl, by decide⟩

/-- Claim C5 (amended): for a 32-byte public key, network id n ∈ {0,1}
and address type t ∈ {0,1}, both `GenerateCardanoAddress` implementations
build their pre-bech32m data with first byte `(n << 4) | t` — network id
in the HIGH 4 bits and address type in the LOW 4 bits, the reverse of the
claimed layout. -/
theorem cardano_header_byte_amended (pub : List Nat) (n t : Nat)
    (hlen : pub.length = 32) (hn : n = 0 ∨ n = 1) (ht : t = 0 ∨ t = 1) :
    cardanoAddressData1 pub n t =
      .ok (((n <<< 4) % 256 ||| t % 256) ::
        (if t = 0 then 0 :: (blake2b224 pub ++ 0 :: blake2b224 pub)
         else 0 :: blake2b224 pub)) ∧
    GenerateCardanoAddress2payload pub t n =
      .ok (((n <<< 4) % 256 ||| t % 256) ::
        ((blake2b256 pub).take 28 ++
          (if t = 0 then (blake2b256 pub).take 28 else []))) := by
  have h1 : ¬ pub.length ≠ 32 := by rw [hlen]; omega
  have h33 : ¬ pub.length = 33 := by rw [hlen]; omega
  have h65 : ¬ pub.length = 65 := by rw [hlen]; omega
  rcases hn with hn | hn <;> rcases ht with ht | ht <;> subst hn <;> subst ht <;>
    exact ⟨by unfold cardanoAddressData1; rw [if_neg h1, if_neg (by omega)]; rfl,
           by unfold GenerateCardanoAddress2payload; rw [if_neg h33, if_neg h65, if_neg h1]⟩

/-- Witness for claim C5: the amended header theorem applied at the
all-zero 32-byte key with network id 1 and address type 0. -/
theorem cardano_header_byte_amended_witness :
    cardanoAddressData1 (List.replicate 32 0) 1 0 =
      .ok (((1 <<< 4) % 256 ||| 0 % 256) ::
        (if 0 = 0 then 0 :: (blake2b224 (List.replicate 32 0) ++
            0 :: blake2b224 (List.replicate 32 0))
         else 0 :: blake2b224 (List.replicate 32 0))) ∧
    GenerateCardanoAddress2payload (List.replicate 32 0) 0 1 =
      .ok (((1 <<< 4) % 256 ||| 0 % 256) ::
        ((blake2b256 (List.replicate 32 0)).take 28 ++
          (if 0 = 0 then (blake2b256 (List.replicate 32 0)).take 28 else []))) :=
  cardano_header_byte_amended (List.replicate 32 0) 1 0 (by simp)
    (Or.inr rfl) (Or.inl rfl)

set_option maxRecDepth 40000 in
/-- Counterexample to claim C6 as stated: a request carrying gasPrice AND
both fee-market fields is signed as an EIP-1559 transaction — no error is
returned for the double fee mode. -/
theorem eth_fee_exclusivity_counterexample :
    EthTransactionSigner.SignTransaction
      (fun _ => some ⟨"".toList, some 21000, some 5, some 2, some 7, some 0,
        some 0, some 1⟩)
      "{}".toList (hexEncode (natToBeBytes 32 1)) =
      .ok ⟨.dynamicFeeTx, 0, 21000, 0, 1, none, some 2, some 7⟩ := by
  rfl

/-- Claim C6 (amended): after key decoding and parsing succeed and
nonce/gas/chainId are present, `EthTransactionSigner.SignTransaction`
errors when NEITHER fee mode is supplied; when both fee-market fields are
present it signs an EIP-1559 transaction (even if gasPrice is also
present), and when gasPrice is present without the full fee-market pair
it signs a legacy transaction — supplying both modes is not rejected. -/
theorem eth_fee_exclusivity_amended
    (parse : List Char → Option EthTransactionRequest)
    (rawTx privateKeyHex : List Char) (priv : List Nat) (d : Nat)
    (req : EthTransactionRequest)
    (hdec : hexDecode privateKeyHex = some priv)
    (hk : ToECDSA priv = .ok d)
    (hparse : parse rawTx = some req)
    (hnonce : req.nonce ≠ none) (hgas : req.gas ≠ none)
    (hchain : req.chainID ≠ none) :
    (req.gasPrice = none ∧
        (req.maxPriorityFeePerGas = none ∨ req.maxFeePerGas = none) →
      EthTransactionSigner.SignTransaction parse rawTx privateKeyHex =
        .error "either gasPrice (for legacy tx) or maxPriorityFeePerGas and maxFeePerGas (for EIP-1559 tx) is required") ∧
    (req.maxPriorityFeePerGas.isSome ∧ req.maxFeePerGas.isSome →
      EthTransactionSigner.SignTransaction parse rawTx privateKeyHex =
        .ok ⟨.dynamicFeeTx, req.nonce.getD 0, req.gas.getD 0, req.value.getD 0,
             req.chainID.getD 0, none, req.maxPriorityFeePerGas,
             req.maxFeePerGas⟩) ∧
    (req.gasPrice.isSome ∧
        (req.maxPriorityFeePerGas = none ∨ req.maxFeePerGas = none) →
      EthTransactionSigner.SignTransaction parse rawTx privateKeyHex =
        .ok ⟨.legacyTx, req.nonce.getD 0, req.gas.getD 0, req.value.getD 0,
             req.chainID.getD 0, req.gasPrice, none, none⟩) := by
  refine ⟨?_, ?_, ?_⟩
  · rintro ⟨hgp, htc⟩
    unfold EthTransactionSigner.SignTransaction
    rw [hdec]
    dsimp only
    rw [hk]
    dsimp only
    rw [hparse]
    dsimp only
    rw [if_neg hnonce, if_neg hgas, if_neg hchain]
    rcases htc with h | h <;> rw [if_pos (by rw [hgp, h]; simp)]
  · rintro ⟨htip, hcap⟩
    unfold EthTransactionSigner.SignTransaction
    rw [hdec]
    dsimp only
    rw [hk]
    dsimp only
    rw [hparse]
    dsimp only
    rw [if_neg hnonce, if_neg hgas, if_neg hchain,
      if_neg (by simp [htip, hcap]), if_pos (by simp [htip, hcap])]
  · rintro ⟨hgp, htc⟩
    unfold EthTransactionSigner.SignTransaction
    rw [hdec]
    dsimp only
    rw [hk]
    dsimp only
    rw [hparse]
    dsimp only
    rw [if_neg hnonce, if_neg hgas, if_neg hchain, if_neg (by simp [hgp])]
    rcases htc with h | h <;> rw [if_neg (by simp [h])]

set_option maxRecDepth 40000 in
/-- Witness for claim C6: the amended theorem applied to a request with
only gasPrice, and the legacy branch taken. -/
theorem eth_fee_exclusivity_amended_witness :
    EthTransactionSigner.SignTransaction
      (fun _ => some ⟨"".toList, some 21000, some 5, none, none, some 0,
        some 0, some 1⟩)
      "{}".toList (hexEncode (natToBeBytes 32 1)) =
      .ok ⟨.legacyTx, 0, 21000, 0, 1, some 5, none, none⟩ :=
  (eth_fee_exclusivity_amended
    (fun _ => some ⟨"".toList, some 21000, some 5, none, none, some 0,
      some 0, some 1⟩)
    "{}".toList (hexEncode (natToBeBytes 32 1)) (natToBeBytes 32 1) 1
    ⟨"".toList, some 21000, some 5, none, none, some 0, some 0, some 1⟩
    (by decide) rfl rfl (by simp) (by simp) (by simp)).2.2
    ⟨by simp, Or.inl rfl⟩

set_option maxRecDepth 40000 in
/-- Counterexample to claim C7 as stated: for a signature hash of 32
bytes 0xaa, the input's unlocking script pushes the raw hash itself —
its first pushed byte is 0xaa = 170, not the 0x30 SEQUENCE tag every DER
ECDSA signature starts with, and no signing operation occurs. -/
theorem btc_script_claim_counterexample :
    BtcTransactionSigner.signScripts (fun _ _ _ => List.replicate 32 170) [[]]
      (natToBeBytes 32 1) =
      [33 :: (List.replicate 32 170 ++ [1]) ++
        33 :: CompressPubkey (secpBase 1)] ∧
    (33 :: (List.replicate 32 170 ++ [1])).getD 1 0 = 170 ∧
    (170 : Nat) ≠ 48 := by
  refine ⟨by rfl, by rfl, by decide⟩

/-- Claim C7 (amended): each input's signature script is the canonical
push of `sigHash[:32] ++ [SigHashAll]` — the raw signature hash plus the
sighash-type byte, NOT an ECDSA signature — followed by the canonical
push of the compressed public key of the signing key. -/
theorem btc_script_amended (calcSigHash : List Nat → Nat → Nat → List Nat)
    (inputScripts : List (List Nat)) (privKeyBytes : List Nat) (i : Nat)
    (hi : i < inputScripts.length) :
    (BtcTransactionSigner.signScripts calcSigHash inputScripts
        privKeyBytes).getD i [] =
      scriptAddData
        ((calcSigHash (inputScripts.getD i []) 1 i).take 32 ++ [1]) ++
      scriptAddData (CompressPubkey (secpBase (PrivKeyFromBytes privKeyBytes))) := by
  unfold BtcTransactionSigner.signScripts
  rw [List.getD_eq_getElem?_getD, List.getElem?_map]
  rw [List.getElem?_range hi]
  rfl

set_option maxRecDepth 40000 in
/-- Witness for claim C7: the script-shape theorem applied to a single
input with an empty locking script and the SHA-256 of the empty message
as the signature hash. -/
theorem btc_script_amended_witness :
    (BtcTransactionSigner.signScripts (fun _ _ _ => sha256 []) [[]]
        (natToBeBytes 32 1)).getD 0 [] =
      scriptAddData ((sha256 []).take 32 ++ [1]) ++
      scriptAddData (CompressPubkey (secpBase (PrivKeyFromBytes (natToBeBytes 32 1)))) :=
  btc_script_amended (fun _ _ _ => sha256 []) [[]] (natToBeBytes 32 1) 0
    (by decide)

theorem isBytes_replicate0 : isBytes (List.replicate 32 0) := by
  intro b hb
  rw [List.eq_of_mem_replicate hb]
  norm_num

theorem ed25519Public_of_seed (priv : List Nat) (h : priv.length = 32) :
    ed25519Public priv = List.replicate 32 0 := by
  unfold ed25519Public
  rw [List.drop_eq_nil_of_le (by omega), List.nil_append, List.take_replicate]
  norm_num

/-- Claim C8 (code bug): for a 32-byte seed, the TON generator derives
the CONSTANT all-zero public key (its address is a function of 32 zero
bytes), and the Aptos generator derives the public key of the fresh
random key `r` drawn by `ed25519.GenerateKey(nil)` — neither equals the
public key of `ed25519.NewKeyFromSeed(seed)` required by the claim. -/
theorem seed_expansion_code_bug
    (pubOfSeed : List Nat → List Nat) (seed r : List Nat)
    (hslen : seed.length = 32) (hsbytes : isBytes seed)
    (hrlen : r.length = 32)
    (hrpublen : (pubOfSeed r).length = 32) (hrpubbytes : isBytes (pubOfSeed r))
    (hspb : isBytes (pubOfSeed seed))
    (hne : pubOfSeed seed ≠ List.replicate 32 0)
    (hner : pubOfSeed r ≠ pubOfSeed seed) :
    TonKeyGenerator.DeriveKeyPairFromPrivateKey (hexEncode seed) =
      .ok ("EQ".toList ++ hexEncode ((keccak256 (List.replicate 32 0)).take 20),
           hexEncode (List.replicate 32 0)) ∧
    hexEncode (List.replicate 32 0) ≠ hexEncode (pubOfSeed seed) ∧
    AptosKeyGenerator.DeriveKeyPairFromPrivateKey pubOfSeed r (hexEncode seed) =
      .ok ("0x".toList ++ hexEncode (sha3_256 (pubOfSeed r)),
           hexEncode (pubOfSeed r)) ∧
    hexEncode (pubOfSeed r) ≠ hexEncode (pubOfSeed seed) := by
  have haddr : TonKeyGenerator.PublicKeyToAddress
      (hexEncode (List.replicate 32 0)) =
      .ok ("EQ".toList ++ hexEncode ((keccak256 (List.replicate 32 0)).take 20)) := by
    unfold TonKeyGenerator.PublicKeyToAddress
    rw [hexDecode_hexEncode _ isBytes_replicate0]
    dsimp only
    rw [if_neg (by simp)]
  have hfull : ed25519Public (seed ++ (r ++ pubOfSeed r).drop 32) = pubOfSeed r := by
    have hdrop : (r ++ pubOfSeed r).drop 32 = pubOfSeed r := by
      rw [← hrlen, List.drop_left]
    rw [hdrop]
    unfold ed25519Public
    have hdrop2 : (seed ++ pubOfSeed r).drop 32 = pubOfSeed r := by
      rw [← hslen, List.drop_left]
    rw [hdrop2]
    exact take_exact _ _ _ hrpublen
  have haddr2 : AptosKeyGenerator.PublicKeyToAddress
      (hexEncode (pubOfSeed r)) =
      .ok ("0x".toList ++ hexEncode (sha3_256 (pubOfSeed r))) := by
    unfold AptosKeyGenerator.PublicKeyToAddress
    rw [hexDecode_hexEncode _ hrpubbytes]
    dsimp only
    rw [if_neg (by rw [hrpublen]; omega)]
  refine ⟨?_, ?_, ?_, ?_⟩
  · unfold TonKeyGenerator.DeriveKeyPairFromPrivateKey
    rw [hexDecode_hexEncode _ hsbytes]
    dsimp only
    rw [if_pos (by rw [hslen]; omega), if_pos hslen, ed25519Public_of_seed _ hslen,
      haddr]
  · intro h
    have h2 := hexDecode_hexEncode _ isBytes_replicate0
    rw [h, hexDecode_hexEncode _ hspb] at h2
    exact hne (Option.some.inj h2)
  · unfold AptosKeyGenerator.DeriveKeyPairFromPrivateKey
    unfold ed25519GenerateKey
    dsimp only
    rw [hexDecode_hexEncode _ hsbytes]
    dsimp only
    rw [if_pos (by rw [hslen]; omega), if_pos hslen, hfull, haddr2]
  · intro h
    have h2 := hexDecode_hexEncode _ hrpubbytes
    rw [h, hexDecode_hexEncode _ hspb] at h2
    exact hner (Option.some.inj h2.symm)

set_option maxRecDepth 40000 in
/-- Witness for claim C8: the code-bug theorem applied to the concrete
seed 0x0101…01, the stand-in randomness 0x0303…03, and the stand-in
seed-to-public-key map adding one to every byte. -/
theorem seed_expansion_code_bug_witness :
    TonKeyGenerator.DeriveKeyPairFromPrivateKey
      (hexEncode (List.replicate 32 1)) =
      .ok ("EQ".toList ++ hexEncode ((keccak256 (List.replicate 32 0)).take 20),
           hexEncode (List.replicate 32 0)) ∧
    hexEncode (List.replicate 32 0) ≠
      hexEncode ((List.replicate 32 1).map (fun b => (b + 1) % 256)) ∧
    AptosKeyGenerator.DeriveKeyPairFromPrivateKey
      (fun s => s.map (fun b => (b + 1) % 256)) (List.replicate 32 3)
      (hexEncode (List.replicate 32 1)) =
      .ok ("0x".toList ++
             hexEncode (sha3_256 ((List.replicate 32 3).map (fun b => (b + 1) % 256))),
           hexEncode ((List.replicate 32 3).map (fun b => (b + 1) % 256))) ∧
    hexEncode ((List.replicate 32 3).map (fun b => (b + 1) % 256)) ≠
      hexEncode ((List.replicate 32 1).map (fun b => (b + 1) % 256)) :=
  seed_expansion_code_bug (fun s => s.map (fun b => (b + 1) % 256))
    (List.replicate 32 1) (List.replicate 32 3)
    (by decide) (by decide) (by decide) (by decide) (by decide) (by decide)
    (by decide) (by decide)
